import Mathlib

/-!
# Space Invaders: a shallow embedding of `src/main.cpp`

The game keeps its state in plain C structs and mutates them once per frame in
the main loop.  This file translates the structs, `key_callback`,
`buffer_clear`, `buffer_sprite_draw` and the phases of the loop body into Lean
functions and proves properties of them.

Conventions of the embedding:

* `size_t` values are natural numbers; every `size_t` operation that can wrap is
  reduced modulo `2 ^ 64` (`to_size_t`).
* `int` values are integers; conversions and arithmetic on `int` are reduced to
  the 32-bit two's complement range (`to_int`).
* C arrays reached through a pointer or embedded in a struct are total maps
  `Nat → cell`: index `i` is the `i`-th cell counted from the start of the
  array, so a write beyond the declared size stays visible.
* the pointer `alien_animation` is an `Option`: `none` is `nullptr`.
* a computation that dereferences `nullptr`, indexes `frames` out of range or
  divides by zero has no defined result; it is `none`.
-/

namespace SpaceInvaders

/-! ## Machine arithmetic -/

/-- Conversion of an integer to `size_t`: reduction modulo `2 ^ 64`. -/
def to_size_t (i : Int) : Nat := (i % 18446744073709551616).toNat

/-- Conversion of an integer to `int`: reduction to `[-2^31, 2^31)`. -/
def to_int (i : Int) : Int := (i + 2147483648) % 4294967296 - 2147483648

/-! ## Data model -/

/-- The pixel buffer: `struct Buffer`. -/
structure Buffer where
  width : Nat
  height : Nat
  data : Nat → Nat

/-- A bitmask image: `struct Sprite`. -/
structure Sprite where
  width : Nat
  height : Nat
  data : Nat → Nat

/-- An enemy: `struct Alien`. -/
structure Alien where
  x : Nat
  y : Nat
  type : Nat
deriving DecidableEq

/-- The player ship: `struct Player`. -/
structure Player where
  x : Nat
  y : Nat
  life : Nat
deriving DecidableEq

/-- A projectile: `struct Bullet`. -/
structure Bullet where
  x : Nat
  y : Nat
  dir : Int
deriving DecidableEq

/-- Capacity of the bullet array: `#define GAME_MAX_BULLET 128`. -/
def GAME_MAX_BULLET : Nat := 128

/-- The game state: `struct Game`. -/
structure Game where
  width : Nat
  height : Nat
  num_aliens : Nat
  num_bullets : Nat
  aliens : Nat → Alien
  player : Player
  bullets : Nat → Bullet

/-- An animation: `struct SpriteAnimation`; `frames` lists the `num_frames`
sprites the pointer array holds. -/
structure SpriteAnimation where
  loop : Bool
  num_frames : Nat
  frame_duration : Nat
  time : Nat
  frames : List Sprite

/-! ## Keyboard input -/

/-- Key code `GLFW_KEY_ESCAPE`. -/
def GLFW_KEY_ESCAPE : Int := 256
/-- Key code `GLFW_KEY_RIGHT`. -/
def GLFW_KEY_RIGHT : Int := 262
/-- Key code `GLFW_KEY_LEFT`. -/
def GLFW_KEY_LEFT : Int := 263
/-- Key code `GLFW_KEY_SPACE`. -/
def GLFW_KEY_SPACE : Int := 32
/-- Action code `GLFW_RELEASE`. -/
def GLFW_RELEASE : Int := 0
/-- Action code `GLFW_PRESS`. -/
def GLFW_PRESS : Int := 1
/-- Action code `GLFW_REPEAT`. -/
def GLFW_REPEAT : Int := 2

/-- The three global variables written by `key_callback`. -/
structure Globals where
  game_running : Bool
  move_dir : Int
  fire_pressed : Bool
deriving DecidableEq

/-- One keyboard event as delivered to `key_callback`. -/
structure KeyEvent where
  key : Int
  action : Int
deriving DecidableEq

/-- The body of `key_callback`: a `switch` on the key, then tests on the action. -/
def key_callback (g : Globals) (key action : Int) : Globals :=
  if key = GLFW_KEY_ESCAPE then
    if action = GLFW_PRESS then { g with game_running := false } else g
  else if key = GLFW_KEY_RIGHT then
    if action = GLFW_PRESS then { g with move_dir := to_int (g.move_dir + 1) }
    else if action = GLFW_RELEASE then { g with move_dir := to_int (g.move_dir - 1) }
    else g
  else if key = GLFW_KEY_LEFT then
    if action = GLFW_PRESS then { g with move_dir := to_int (g.move_dir - 1) }
    else if action = GLFW_RELEASE then { g with move_dir := to_int (g.move_dir + 1) }
    else g
  else if key = GLFW_KEY_SPACE then
    if action = GLFW_RELEASE then { g with fire_pressed := true } else g
  else g

/-- The effect of `glfwPollEvents`: `key_callback` runs once per pending event,
in order. -/
def poll_events (g : Globals) (events : List KeyEvent) : Globals :=
  events.foldl (fun acc e => key_callback acc e.key e.action) g

/-! ## Pixel buffer -/

/-- The function `buffer_clear`: every cell below `width * height` (the product
taken in `size_t`) receives `col`. -/
def buffer_clear (b : Buffer) (col : Nat) : Buffer :=
  { b with data := fun i => if i < to_size_t (b.width * b.height) then col else b.data i }

/-- The body of the inner loop of `buffer_sprite_draw` for one mask cell
`(xi, yi)`. -/
def sprite_draw_cell (sprite : Sprite) (x y color : Nat) (xi : Nat)
    (buffer : Buffer) (yi : Nat) : Buffer :=
  if sprite.data (to_size_t (yi * sprite.width + xi)) ≠ 0 ∧
      to_size_t (sprite.height - 1 + y - yi) < buffer.height ∧
      to_size_t (x + xi) < buffer.width then
    { buffer with
      data := Function.update buffer.data
        (to_size_t (to_size_t (sprite.height - 1 + y - yi) * buffer.width + to_size_t (x + xi)))
        color }
  else buffer

/-- The function `buffer_sprite_draw`: columns `xi` in the outer loop, rows `yi`
in the inner loop. -/
def buffer_sprite_draw (buffer : Buffer) (sprite : Sprite) (x y color : Nat) : Buffer :=
  (List.range sprite.width).foldl
    (fun b xi => (List.range sprite.height).foldl (sprite_draw_cell sprite x y color xi) b)
    buffer

/-- The function `rgb_to_uint32`: the `int` expression
`(r << 24) | (g << 16) | (b << 8) | 255` converted to `uint32_t`.  The operands
are bytes promoted to `int`; the two's complement bit pattern of the result,
also when `r << 24` sets the sign bit, is that of the same shifts and ors on
natural numbers, and the conversion to `uint32_t` keeps its low 32 bits. -/
def rgb_to_uint32 (r g b : Nat) : Nat :=
  (r <<< 24 ||| g <<< 16 ||| b <<< 8 ||| 255) % 4294967296

/-! ## Animation clock -/

/-- The frame index computed in the alien draw loop:
`alien_animation->time / alien_animation->frame_duration`. -/
def current_frame (alien_animation : Option SpriteAnimation) : Option Nat :=
  match alien_animation with
  | none => none
  | some a => if a.frame_duration = 0 then none else some (a.time / a.frame_duration)

/-- The sprite selected in the alien draw loop: `*alien_animation->frames[current_frame]`. -/
def current_sprite (alien_animation : Option SpriteAnimation) : Option Sprite :=
  match alien_animation, current_frame alien_animation with
  | some a, some f => a.frames[f]?
  | _, _ => none

/-- The update of a live animation (the block after `// Update animation`):
the result is the new value of the pointer `alien_animation`. -/
def animation_advance (a : SpriteAnimation) : Option SpriteAnimation :=
  if to_size_t (a.time + 1) = to_size_t (a.num_frames * a.frame_duration) then
    if a.loop then some { a with time := 0 } else none
  else some { a with time := to_size_t (a.time + 1) }

/-- The animation update as the loop body executes it: `++alien_animation->time`
dereferences the pointer first, whatever it holds. -/
def update_animation (alien_animation : Option SpriteAnimation) :
    Option (Option SpriteAnimation) :=
  match alien_animation with
  | none => none
  | some a => some (animation_advance a)

/-! ## Simulation -/

/-- The statement `game.bullets[bi].y += game.bullets[bi].dir`. -/
def bullet_advance (b : Bullet) : Bullet :=
  { b with y := to_size_t (b.y + b.dir) }

/-- The removal test of the bullet loop:
`y >= game.height || y < bullet_sprite.height`. -/
def bullet_out (bullet_sprite : Sprite) (game : Game) (b : Bullet) : Bool :=
  decide (b.y ≥ game.height ∨ b.y < bullet_sprite.height)

/-- The bullet loop from index `bi` on: advance the bullet at `bi`; on removal
copy the last live bullet over it, shrink the count and stay at `bi`. -/
def simulate_bullets_from (bullet_sprite : Sprite) (game : Game) (bi : Nat) : Game :=
  if bi < game.num_bullets then
    if bullet_out bullet_sprite game (bullet_advance (game.bullets bi)) then
      simulate_bullets_from bullet_sprite
        { game with
          bullets := Function.update
            (Function.update game.bullets bi (bullet_advance (game.bullets bi))) bi
            (Function.update game.bullets bi (bullet_advance (game.bullets bi))
              (game.num_bullets - 1))
          num_bullets := game.num_bullets - 1 }
        bi
    else
      simulate_bullets_from bullet_sprite
        { game with
          bullets := Function.update game.bullets bi (bullet_advance (game.bullets bi)) }
        (bi + 1)
  else game
termination_by game.num_bullets - bi
decreasing_by
  all_goals simp_wf
  all_goals omega

/-- The bullet simulation of one frame: the loop started at `bi = 0`. -/
def simulate_bullets (bullet_sprite : Sprite) (game : Game) : Game :=
  simulate_bullets_from bullet_sprite game 0

/-- The player simulation of one frame.  The result pairs the game with the
final value of the local `player_mov_dir`. -/
def simulate_player (player_sprite : Sprite) (move_dir : Int) (game : Game) : Game × Int :=
  if to_int (2 * move_dir) ≠ 0 then
    if to_size_t (game.player.x + player_sprite.width + to_int (2 * move_dir))
        ≥ to_size_t (game.width - 1) then
      ({ game with
         player := { game.player with
           x := to_size_t (game.width - player_sprite.width - to_int (2 * move_dir) - 1) } },
       to_int (to_int (2 * move_dir) * -1))
    else if to_int (to_int game.player.x + to_int (2 * move_dir)) ≤ 0 then
      ({ game with player := { game.player with x := 0 } },
       to_int (to_int (2 * move_dir) * -1))
    else
      ({ game with
         player := { game.player with
           x := to_size_t (game.player.x + to_int (2 * move_dir)) } },
       to_int (2 * move_dir))
  else (game, to_int (2 * move_dir))

/-- The fire handling of one frame (the block after `// process events`
without the poll): spawn when the flag is set and there is room, then clear the
flag. -/
def process_fire (player_sprite : Sprite) (fire_pressed : Bool) (game : Game) : Game × Bool :=
  if fire_pressed = true ∧ game.num_bullets < GAME_MAX_BULLET then
    ({ game with
       bullets := Function.update game.bullets game.num_bullets
         { x := to_size_t (game.player.x + player_sprite.width / 2)
           y := to_size_t (game.player.y + player_sprite.height)
           dir := 2 }
       num_bullets := to_size_t (game.num_bullets + 1) },
     false)
  else (game, false)

/-! ## Assets and start-up configuration of `main` -/

/-- The mask of `alien_sprite` (11 x 8), row by row. -/
def alien_sprite_data : List Nat :=
  [0, 0, 1, 0, 0, 0, 0, 0, 1, 0, 0,
   0, 0, 0, 1, 0, 0, 0, 1, 0, 0, 0,
   0, 0, 1, 1, 1, 1, 1, 1, 1, 0, 0,
   0, 1, 1, 0, 1, 1, 1, 0, 1, 1, 0,
   1, 1, 1, 1, 1, 1, 1, 1, 1, 1, 1,
   1, 0, 1, 1, 1, 1, 1, 1, 1, 0, 1,
   1, 0, 1, 0, 0, 0, 0, 0, 1, 0, 1,
   0, 0, 0, 1, 1, 0, 1, 1, 0, 0, 0]

/-- The mask of `alien_sprite1` (11 x 8), row by row. -/
def alien_sprite1_data : List Nat :=
  [0, 0, 1, 0, 0, 0, 0, 0, 1, 0, 0,
   1, 0, 0, 1, 0, 0, 0, 1, 0, 0, 1,
   1, 0, 1, 1, 1, 1, 1, 1, 1, 0, 1,
   1, 1, 1, 0, 1, 1, 1, 0, 1, 1, 1,
   1, 1, 1, 1, 1, 1, 1, 1, 1, 1, 1,
   0, 1, 1, 1, 1, 1, 1, 1, 1, 1, 0,
   0, 0, 1, 0, 0, 0, 0, 0, 1, 0, 0,
   0, 1, 0, 0, 0, 0, 0, 0, 0, 1, 0]

/-- The mask of `player_sprite` (11 x 7), row by row. -/
def player_sprite_data : List Nat :=
  [0, 0, 0, 0, 0, 1, 0, 0, 0, 0, 0,
   0, 0, 0, 0, 1, 1, 1, 0, 0, 0, 0,
   0, 0, 0, 0, 1, 1, 1, 0, 0, 0, 0,
   0, 1, 1, 1, 1, 1, 1, 1, 1, 1, 0,
   1, 1, 1, 1, 1, 1, 1, 1, 1, 1, 1,
   1, 1, 1, 1, 1, 1, 1, 1, 1, 1, 1,
   1, 1, 1, 1, 1, 1, 1, 1, 1, 1, 1]

/-- The local `alien_sprite` of `main`. -/
def alien_sprite : Sprite :=
  { width := 11, height := 8, data := fun i => alien_sprite_data.getD i 0 }

/-- The local `alien_sprite1` of `main`. -/
def alien_sprite1 : Sprite :=
  { width := 11, height := 8, data := fun i => alien_sprite1_data.getD i 0 }

/-- The local `player_sprite` of `main`. -/
def player_sprite : Sprite :=
  { width := 11, height := 7, data := fun i => player_sprite_data.getD i 0 }

/-- The local `bullet_sprite` of `main` (1 x 3, all cells set). -/
def bullet_sprite : Sprite :=
  { width := 1, height := 3, data := fun i => [1, 1, 1].getD i 0 }

/-- The animation `main` allocates: two frames, ten ticks each, looping. -/
def initial_animation : SpriteAnimation :=
  { loop := true, num_frames := 2, frame_duration := 10, time := 0,
    frames := [alien_sprite, alien_sprite1] }

/-- The game `main` prepares before the loop: 224 x 256, 55 aliens in five rows
of eleven, no bullet, the player at (117, 32) with three lives.  Cells the
program leaves uninitialised are zero here. -/
def initial_game : Game :=
  { width := 224, height := 256, num_aliens := 55, num_bullets := 0,
    aliens := fun i =>
      if i < 55 then { x := 16 * (i % 11) + 20, y := 17 * (i / 11) + 128, type := 0 }
      else { x := 0, y := 0, type := 0 },
    player := { x := 122 - 5, y := 32, life := 3 },
    bullets := fun _ => { x := 0, y := 0, dir := 0 } }

/-- The globals at the first test of the loop condition. -/
def initial_globals : Globals :=
  { game_running := true, move_dir := 0, fire_pressed := false }

/-- The constant `clear_color` of `main`. -/
def clear_color : Nat := rgb_to_uint32 0 128 0

/-! ## The loop body of `main` -/

/-- Everything the loop body reads or writes. -/
structure State where
  buffer : Buffer
  game : Game
  alien_animation : Option SpriteAnimation
  player_mov_dir : Int
  globals : Globals

/-- The alien draw loop: one stamp per alien, the frame looked up anew for each. -/
def draw_aliens (buffer : Buffer) (game : Game) (alien_animation : Option SpriteAnimation) :
    Option Buffer :=
  (List.range game.num_aliens).foldlM
    (fun b ai =>
      match current_sprite alien_animation with
      | none => none
      | some sprite =>
        some (buffer_sprite_draw b sprite (game.aliens ai).x (game.aliens ai).y
          (rgb_to_uint32 128 0 0)))
    buffer

/-- The bullet draw loop: one stamp per live bullet. -/
def draw_bullets (buffer : Buffer) (game : Game) : Buffer :=
  (List.range game.num_bullets).foldl
    (fun b bi =>
      buffer_sprite_draw b bullet_sprite (game.bullets bi).x (game.bullets bi).y
        (rgb_to_uint32 128 0 0))
    buffer

/-- The render phase: clear, aliens, bullets, player. -/
def render (buffer : Buffer) (game : Game) (alien_animation : Option SpriteAnimation) :
    Option Buffer :=
  match draw_aliens (buffer_clear buffer clear_color) game alien_animation with
  | none => none
  | some b =>
    some (buffer_sprite_draw (draw_bullets b game) player_sprite game.player.x game.player.y
      (rgb_to_uint32 128 0 0))

/-- The simulation part of the loop body, from `// stimulate bullet` to
`glfwPollEvents()`: bullets, player, fire handling, then the pending keyboard
events. -/
def simulate (game : Game) (globals : Globals) (events : List KeyEvent) :
    Game × Int × Globals :=
  ((process_fire player_sprite globals.fire_pressed
      (simulate_player player_sprite globals.move_dir
        (simulate_bullets bullet_sprite game)).1).1,
   (simulate_player player_sprite globals.move_dir (simulate_bullets bullet_sprite game)).2,
   poll_events
     { globals with
       fire_pressed :=
        (process_fire player_sprite globals.fire_pressed
          (simulate_player player_sprite globals.move_dir
            (simulate_bullets bullet_sprite game)).1).2 }
     events)

/-- One iteration of the `while` loop of `main`; `events` are the keyboard events
`glfwPollEvents` delivers at its end. -/
def main_loop_body (s : State) (events : List KeyEvent) : Option State :=
  match render s.buffer s.game s.alien_animation with
  | none => none
  | some buffer =>
    match update_animation s.alien_animation with
    | none => none
    | some alien_animation =>
      some
        { buffer := buffer
          game := (simulate s.game s.globals events).1
          alien_animation := alien_animation
          player_mov_dir := (simulate s.game s.globals events).2.1
          globals := (simulate s.game s.globals events).2.2 }

/-- The state at the first iteration of the loop. -/
def initial_state : State :=
  { buffer := { width := 224, height := 256, data := fun _ => 0 }
    game := initial_game
    alien_animation := some initial_animation
    player_mov_dir := 1
    globals := initial_globals }

/-- The live bullets, in array order: cells `0 .. num_bullets - 1`. -/
def live_bullets (game : Game) : List Bullet :=
  (List.range game.num_bullets).map game.bullets

/-- The number of bullets the fire handling creates: the growth of the live
count across the step. -/
def spawned (player_sprite : Sprite) (fire_pressed : Bool) (game : Game) : Nat :=
  (process_fire player_sprite fire_pressed game).1.num_bullets - game.num_bullets

/-- The loop body iterated, for as many iterations as the loop condition
admits: one list of keyboard events per iteration. -/
def run_loop (s : State) : List (List KeyEvent) → Option State
  | [] => some s
  | events :: rest =>
    match main_loop_body s events with
    | none => none
    | some s1 => run_loop s1 rest

/-- A game with three live bullets, two of which leave the playfield at the
next step (test input). -/
def three_bullets_game : Game :=
  { initial_game with
    num_bullets := 3
    bullets := fun i =>
      if i = 0 then { x := 10, y := 254, dir := 2 }
      else if i = 1 then { x := 20, y := 100, dir := 2 }
      else { x := 30, y := 255, dir := 2 } }

/-- The initial game with the player moved to column `x` (test input). -/
def player_at (x : Nat) : Game :=
  { initial_game with player := { initial_game.player with x := x } }

/-- A 4 x 4 buffer of zeros (test input). -/
def small_buffer : Buffer :=
  { width := 4, height := 4, data := fun _ => 0 }

/-- What a partially stamped buffer `b` owes to the original `b0`: same size,
and every differing cell is the in-range target of a nonzero mask cell. -/
def stamped_from (sprite : Sprite) (x y : Nat) (b0 b : Buffer) : Prop :=
  b.width = b0.width ∧ b.height = b0.height ∧
    ∀ i, b.data i ≠ b0.data i →
      ∃ xi yi, xi < sprite.width ∧ yi < sprite.height ∧
        sprite.data (to_size_t (yi * sprite.width + xi)) ≠ 0 ∧
        to_size_t (sprite.height - 1 + y - yi) < b0.height ∧
        to_size_t (x + xi) < b0.width ∧
        i = to_size_t (to_size_t (sprite.height - 1 + y - yi) * b0.width + to_size_t (x + xi))

/-- The animation update iterated `k` times on the pointer, as `k` successive
frames execute it. -/
def update_animation_n : Nat → Option SpriteAnimation → Option (Option SpriteAnimation)
  | 0, p => some p
  | k + 1, p =>
    match update_animation p with
    | none => none
    | some p1 => update_animation_n k p1

/-- The frame index the render phase computes after `k` animation updates of
the animation `a`. -/
def frame_after (a : SpriteAnimation) (k : Nat) : Option Nat :=
  match update_animation_n k (some a) with
  | some p => current_frame p
  | none => none

/-- The value at which the clock of a looping animation returns to zero: the
`size_t` product `num_frames * frame_duration`, or `2 ^ 64` when that product
is zero. -/
def clock_period (a : SpriteAnimation) : Nat :=
  if to_size_t (a.num_frames * a.frame_duration) = 0 then 18446744073709551616
  else to_size_t (a.num_frames * a.frame_duration)

/-- The configured animation with `loop` cleared (test input). -/
def one_shot_animation : SpriteAnimation :=
  { initial_animation with loop := false }

/-- The configured animation at clock value `t`, with `loop` cleared. -/
def one_shot_at (t : Nat) : SpriteAnimation :=
  { one_shot_animation with time := t }

/-- The initial state with the one-shot animation installed (test input). -/
def one_shot_state : State :=
  { initial_state with alien_animation := some one_shot_animation }

/-- A looping animation of four frames, `2 ^ 63` ticks each: the product of the
two is `2 ^ 65`, which is zero as a `size_t` (test input). -/
def slow_animation : SpriteAnimation :=
  { loop := true, num_frames := 4, frame_duration := 9223372036854775808, time := 0,
    frames := [alien_sprite, alien_sprite1, alien_sprite, alien_sprite1] }

/-- The simulation part of the loop body iterated: one list of keyboard events
per iteration. -/
def run_simulate (game : Game) (globals : Globals) : List (List KeyEvent) → Game × Globals
  | [] => (game, globals)
  | events :: rest =>
    run_simulate (simulate game globals events).1 (simulate game globals events).2.2 rest

/-- The game as the fire handling of an iteration finds it: after the bullet
and player simulation of that iteration. -/
def before_fire (game : Game) (globals : Globals) : Game :=
  (simulate_player player_sprite globals.move_dir (simulate_bullets bullet_sprite game)).1

/-- The number of bullets created by the fire handling of one iteration. -/
def tick_spawned (game : Game) (globals : Globals) : Nat :=
  spawned player_sprite globals.fire_pressed (before_fire game globals)

/-- The number of bullets created over a run of iterations. -/
def spawn_total (game : Game) (globals : Globals) : List (List KeyEvent) → Nat
  | [] => 0
  | events :: rest =>
    tick_spawned game globals +
      spawn_total (simulate game globals events).1 (simulate game globals events).2.2 rest

/-- The event `e` is a release of the SPACE key. -/
def is_space_release (e : KeyEvent) : Prop :=
  e.key = GLFW_KEY_SPACE ∧ e.action = GLFW_RELEASE

/-- The initial game with the bullet array full (test input). -/
def full_game : Game :=
  { initial_game with num_bullets := 128 }

/-- A looping animation the render phase can query: at least one frame of at
least one tick, `num_frames` entries in `frames`, the clock below
`num_frames * frame_duration`. -/
def animation_ok (a : SpriteAnimation) : Prop :=
  a.loop = true ∧ 1 ≤ a.num_frames ∧ 1 ≤ a.frame_duration ∧
    a.frames.length = a.num_frames ∧ a.time < a.num_frames * a.frame_duration

/-- The first test of the player step:
`game.player.x + player_sprite.width + player_mov_dir >= game.width - 1`. -/
def right_clamp_test (player_sprite : Sprite) (move_dir : Int) (game : Game) : Prop :=
  to_size_t (game.player.x + player_sprite.width + to_int (2 * move_dir))
    ≥ to_size_t (game.width - 1)

/-- The second test of the player step: `(int)game.player.x + player_mov_dir <= 0`. -/
def left_clamp_test (move_dir : Int) (game : Game) : Prop :=
  to_int (to_int game.player.x + to_int (2 * move_dir)) ≤ 0

/-- The initial globals with RIGHT held: `move_dir = 1` (test input). -/
def moving_globals : Globals :=
  { initial_globals with move_dir := 1 }

/-- The initial state with RIGHT held (test input). -/
def moving_state : State :=
  { initial_state with globals := moving_globals }

/-- Which of the two arrow keys are down. -/
structure Held where
  right : Bool
  left : Bool
deriving DecidableEq

/-- The arrow keys down after the event `e`, when `e` respects the alternation
of press and release of its key (a press of a key that is up, a release of a
key that is down, or any repeat event or event of another key); `none` when it
does not. -/
def held_step (h : Held) (e : KeyEvent) : Option Held :=
  if e.key = GLFW_KEY_RIGHT then
    if e.action = GLFW_PRESS then
      if h.right = true then none else some { h with right := true }
    else if e.action = GLFW_RELEASE then
      if h.right = true then some { h with right := false } else none
    else some h
  else if e.key = GLFW_KEY_LEFT then
    if e.action = GLFW_PRESS then
      if h.left = true then none else some { h with left := true }
    else if e.action = GLFW_RELEASE then
      if h.left = true then some { h with left := false } else none
    else some h
  else some h

/-- The arrow keys down after a sequence of events that respects the
alternation throughout. -/
def held_after (h : Held) : List KeyEvent → Option Held
  | [] => some h
  | e :: rest =>
    match held_step h e with
    | none => none
    | some h1 => held_after h1 rest

/-- The net horizontal intent of the keys held: one for RIGHT minus one for
LEFT. -/
def held_value (h : Held) : Int :=
  (if h.right = true then 1 else 0) - (if h.left = true then 1 else 0)

/-- A 16 x 16 buffer of zeros (test input). -/
def medium_buffer : Buffer :=
  { width := 16, height := 16, data := fun _ => 0 }

/-- The states the program can be in at the top of the loop: the initial state
and every state a completed iteration leads to, whatever events are polled. -/
inductive reachable : State → Prop
  | start : reachable initial_state
  | tick (s s1 : State) (events : List KeyEvent) :
      reachable s → main_loop_body s events = some s1 → reachable s1

/-- The states reachable when every iteration starts with `move_dir` equal to
-1, 0 or 1. -/
inductive reachable_in_play : State → Prop
  | start : reachable_in_play initial_state
  | tick (s s1 : State) (events : List KeyEvent) :
      reachable_in_play s → -1 ≤ s.globals.move_dir → s.globals.move_dir ≤ 1 →
      main_loop_body s events = some s1 → reachable_in_play s1

/-- The live bullets of `game` fly upwards in steps of two at pairwise distinct
odd heights in `[lo, 255]`. -/
def bullets_in (lo : Nat) (game : Game) : Prop :=
  ((live_bullets game).map Bullet.y).Nodup ∧
    ∀ b ∈ live_bullets game, b.dir = 2 ∧ lo ≤ b.y ∧ b.y ≤ 255 ∧ b.y % 2 = 1

/-- The invariant of the game in play: the sizes and the player row of the
initial game, and live bullets at distinct odd heights in `[39, 255]`. -/
def game_inv (game : Game) : Prop :=
  game.width = 224 ∧ game.height = 256 ∧ game.player.y = 32 ∧ bullets_in 39 game

/-! # Properties -/

/-! ## Bullet loop -/

theorem map_update_range (f : Nat → Bullet) (i : Nat) (b : Bullet) :
    (List.range i).map (Function.update f i b) = (List.range i).map f := by
  apply List.map_congr_left
  intro a ha
  have : a ≠ i := by
    have := List.mem_range.mp ha
    omega
  simp [Function.update, this]

theorem map_update_range' (f : Nat → Bullet) (i s n : Nat) (b : Bullet) (h : i < s) :
    (List.range' s n).map (Function.update f i b) = (List.range' s n).map f := by
  apply List.map_congr_left
  intro a ha
  have : a ≠ i := by
    have := (List.mem_range'_1.mp ha).1
    omega
  simp [Function.update, this]

theorem simulate_bullets_from_spec (bs : Sprite) :
    ∀ (n : Nat) (game : Game) (bi : Nat), game.num_bullets - bi = n → bi ≤ game.num_bullets →
      (live_bullets (simulate_bullets_from bs game bi)).Perm
        ((List.range bi).map game.bullets ++
          (((List.range' bi (game.num_bullets - bi)).map game.bullets).map bullet_advance).filter
            (fun b => !bullet_out bs game b)) := by
  intro n
  induction n with
  | zero =>
    intro game bi h1 h2
    have hbi : bi = game.num_bullets := by omega
    rw [simulate_bullets_from]
    simp [hbi, live_bullets]
  | succ n ih =>
    intro game bi h1 h2
    have hlt : bi < game.num_bullets := by omega
    rw [simulate_bullets_from]
    simp only [hlt, if_true]
    have hr : List.range' bi (game.num_bullets - bi) = bi :: List.range' (bi + 1) n := by
      rw [h1]; rfl
    split
    · rename_i hout
      refine (ih _ bi (by simp; omega) (by simp; omega)).trans ?_
      simp only [Function.update_idem]
      rw [map_update_range, hr]
      apply List.Perm.append_left
      simp only [List.map_cons, List.filter_cons, hout, Bool.not_true]
      have hn : game.num_bullets - 1 - bi = n := by omega
      simp only [hn, bullet_out, Bool.false_eq_true, if_false]
      apply List.Perm.filter
      apply List.Perm.map
      cases n with
      | zero => simp
      | succ m =>
        have hlast : game.num_bullets - 1 = bi + 1 + m := by omega
        have hne : bi + 1 + m ≠ bi := by omega
        have e1 : List.range' bi (m + 1) = bi :: List.range' (bi + 1) m := rfl
        have e2 : List.range' (bi + 1) (m + 1) = List.range' (bi + 1) m ++ [bi + 1 + m] := by
          simpa using (List.range'_concat (bi + 1) m : List.range' (bi + 1) (m + 1) 1 = _)
        rw [e1, e2, List.map_cons, map_update_range' _ _ _ _ _ (Nat.lt_succ_self bi), hlast]
        simp only [Function.update_same, Function.update_noteq hne, List.map_append,
          List.map_cons, List.map_nil, Nat.mul_one, one_mul, mul_one]
        exact List.perm_append_singleton _ _ |>.symm
    · rename_i hin
      refine (ih _ (bi + 1) (by simp; omega) (by simp; omega)).trans ?_
      have hn : game.num_bullets - (bi + 1) = n := by omega
      simp only [hn, hr, bullet_out] at hin ⊢
      rw [map_update_range' _ _ _ _ _ (by omega), List.range_succ, List.map_append]
      rw [map_update_range]
      simp only [List.map_cons, List.map_nil, Function.update_same, List.filter_cons, hin,
        List.append_assoc, List.singleton_append, Bool.not_false, if_true]
      simp [hin]

theorem live_bullets_length (game : Game) : (live_bullets game).length = game.num_bullets := by
  simp [live_bullets]

theorem simulate_bullets_perm (bs : Sprite) (game : Game) :
    (live_bullets (simulate_bullets bs game)).Perm
      (((live_bullets game).map bullet_advance).filter (fun b => !bullet_out bs game b)) := by
  have h := simulate_bullets_from_spec bs _ game 0 rfl (Nat.zero_le _)
  simpa [simulate_bullets, live_bullets, List.range_eq_range'] using h

theorem simulate_bullets_count (bs : Sprite) (game : Game) :
    (simulate_bullets bs game).num_bullets + ((live_bullets game).map bullet_advance).countP
      (bullet_out bs game) = game.num_bullets := by
  have h := (simulate_bullets_perm bs game).length_eq
  rw [live_bullets_length] at h
  have h2 := List.length_eq_countP_add_countP (bullet_out bs game)
    ((live_bullets game).map bullet_advance)
  rw [List.length_map, live_bullets_length] at h2
  rw [List.countP_eq_length_filter, List.countP_eq_length_filter] at h2
  rw [List.countP_eq_length_filter, h]
  have h3 : (fun b => !bullet_out bs game b) = (fun b => decide ¬bullet_out bs game b = true) := by
    funext b
    cases bullet_out bs game b <;> simp
  rw [h3]
  omega

/-- C1: one pass of the bullet loop over `K = num_bullets <= 128` live bullets
advances every bullet exactly once and keeps, as a multiset, exactly the
advanced bullets whose new `y` is in `[bullet_sprite.height, game.height)`;
with `M` advanced bullets out of that range, `K - M` bullets stay live (so the
count stays within the capacity). -/
theorem simulate_bullets_survivors (bullet_sprite : Sprite) (game : Game)
    (hK : game.num_bullets ≤ GAME_MAX_BULLET) :
    ((live_bullets (simulate_bullets bullet_sprite game) : List Bullet) : Multiset Bullet) =
        ((((live_bullets game).map bullet_advance).filter
          (fun b => !bullet_out bullet_sprite game b) : List Bullet) : Multiset Bullet) ∧
      (simulate_bullets bullet_sprite game).num_bullets =
        game.num_bullets -
          ((live_bullets game).map bullet_advance).countP (bullet_out bullet_sprite game) ∧
      (simulate_bullets bullet_sprite game).num_bullets ≤ GAME_MAX_BULLET := by
  have hc := simulate_bullets_count bullet_sprite game
  refine ⟨Multiset.coe_eq_coe.mpr (simulate_bullets_perm bullet_sprite game), by omega, by omega⟩

/-- C1, instance: three live bullets at heights 254, 100 and 255 in the
initial playfield. -/
theorem simulate_bullets_survivors_witness :
    (three_bullets_game).num_bullets ≤ GAME_MAX_BULLET ∧
      (((live_bullets (simulate_bullets bullet_sprite three_bullets_game) : List Bullet) :
          Multiset Bullet) =
        ((((live_bullets three_bullets_game).map bullet_advance).filter
          (fun b => !bullet_out bullet_sprite three_bullets_game b) : List Bullet) :
            Multiset Bullet) ∧
      (simulate_bullets bullet_sprite three_bullets_game).num_bullets =
        three_bullets_game.num_bullets -
          ((live_bullets three_bullets_game).map bullet_advance).countP
            (bullet_out bullet_sprite three_bullets_game) ∧
      (simulate_bullets bullet_sprite three_bullets_game).num_bullets ≤ GAME_MAX_BULLET) :=
  ⟨by decide, simulate_bullets_survivors bullet_sprite three_bullets_game (by decide)⟩

/-! ## Player step -/

/-- C2, the code at the failing input: with the player at column 211 of the
224-wide playfield and `move_dir = 1` the right clamp test holds and the step
leaves the player at column 210, two short of `224 - 11 - 1 = 212`, while the
left clamp from column 1 gives exactly 0. -/
theorem right_clamp_from_211 :
    to_size_t ((player_at 211).player.x + player_sprite.width + to_int (2 * 1)) ≥
        to_size_t ((player_at 211).width - 1) ∧
      (simulate_player player_sprite 1 (player_at 211)).1.player.x = 210 ∧
      (player_at 211).width - player_sprite.width - 1 = 212 ∧
      (simulate_player player_sprite (-1) (player_at 1)).1.player.x = 0 := by
  decide

/-- C3 as stated fails: from column 0, inside `[0, 212]`, the input
`move_dir = -6` makes the unsigned right clamp test wrap and the step puts the
player at column 224, beyond 212. -/
theorem simulate_player_beyond_at_minus_six :
    (player_at 0).player.x ≤ (player_at 0).width - player_sprite.width - 1 ∧
      ¬ ((simulate_player player_sprite (-6) (player_at 0)).1.player.x ≤
        (player_at 0).width - player_sprite.width - 1) := by
  decide

/-- C3, amended: on a playfield narrower than `2 ^ 31`, for every player column
`x <= width - sprite.width - 1` and every `move_dir` with
`-sprite.width <= 2 * move_dir <= width - sprite.width - 1` (for 224 and 11:
`-5 <= move_dir <= 106`), the player step leaves the column in
`[0, width - sprite.width - 1]`. -/
theorem simulate_player_in_field (player_sprite : Sprite) (move_dir : Int) (game : Game)
    (hw : player_sprite.width + 1 ≤ game.width) (hW : game.width < 2147483648)
    (hx : game.player.x ≤ game.width - player_sprite.width - 1)
    (hlo : -(player_sprite.width : Int) ≤ 2 * move_dir)
    (hhi : 2 * move_dir ≤ (game.width : Int) - player_sprite.width - 1) :
    (simulate_player player_sprite move_dir game).1.player.x ≤
      game.width - player_sprite.width - 1 := by
  unfold simulate_player to_size_t to_int
  split_ifs <;> simp only <;> omega

/-- C3, amended, instance: column 212 with `move_dir = 106`, and the bounds
`-5` and `106` for the configured sizes. -/
theorem simulate_player_in_field_witness :
    (player_sprite.width + 1 ≤ (player_at 212).width ∧
      (player_at 212).width < 2147483648 ∧
      (player_at 212).player.x ≤ (player_at 212).width - player_sprite.width - 1 ∧
      -(player_sprite.width : Int) ≤ 2 * 106 ∧
      2 * (106 : Int) ≤ ((player_at 212).width : Int) - player_sprite.width - 1) ∧
      (simulate_player player_sprite 106 (player_at 212)).1.player.x ≤
        (player_at 212).width - player_sprite.width - 1 :=
  ⟨by decide,
    simulate_player_in_field player_sprite 106 (player_at 212) (by decide) (by decide)
      (by decide) (by decide) (by decide)⟩

/-! ## Sprite stamping -/

theorem foldl_preserves {α β : Type} (P : α → Prop) (f : α → β → α) (l : List β)
    (hstep : ∀ a b, b ∈ l → P a → P (f a b)) : ∀ a, P a → P (l.foldl f a) := by
  induction l with
  | nil => intro a ha; simpa using ha
  | cons b t ih =>
    intro a ha
    rw [List.foldl_cons]
    apply ih
    · intro a1 b1 hb1 ha1
      exact hstep a1 b1 (List.mem_cons_of_mem _ hb1) ha1
    · exact hstep a b (List.mem_cons_self _ _) ha

theorem sprite_draw_cell_stamped (sprite : Sprite) (x y color : Nat) (b0 b : Buffer)
    (xi yi : Nat) (hxi : xi < sprite.width) (hyi : yi < sprite.height)
    (h : stamped_from sprite x y b0 b) :
    stamped_from sprite x y b0 (sprite_draw_cell sprite x y color xi b yi) := by
  obtain ⟨hw, hh, hd⟩ := h
  unfold sprite_draw_cell
  split
  · rename_i hc
    refine ⟨hw, hh, ?_⟩
    intro i hi
    simp only at hi
    by_cases hidx : i = to_size_t (to_size_t (sprite.height - 1 + y - yi) * b.width +
        to_size_t (x + xi))
    · refine ⟨xi, yi, hxi, hyi, hc.1, ?_, ?_, ?_⟩
      · rw [← hh]; exact hc.2.1
      · rw [← hw]; exact hc.2.2
      · rw [← hw]; exact hidx
    · rw [Function.update_noteq hidx] at hi
      exact hd i hi
  · exact ⟨hw, hh, hd⟩

theorem buffer_sprite_draw_stamped (buffer : Buffer) (sprite : Sprite) (x y color : Nat) :
    stamped_from sprite x y buffer (buffer_sprite_draw buffer sprite x y color) := by
  unfold buffer_sprite_draw
  apply foldl_preserves (stamped_from sprite x y buffer)
  · intro b xi hxi hb
    apply foldl_preserves (stamped_from sprite x y buffer)
    · intro b1 yi hyi hb1
      exact sprite_draw_cell_stamped sprite x y color buffer b1 xi yi
        (List.mem_range.mp hxi) (List.mem_range.mp hyi) hb1
    · exact hb
  · exact ⟨rfl, rfl, fun i hi => absurd rfl hi⟩

theorem cell_index_lt (w h sx sy : Nat) (hx : sx < w) (hy : sy < h) : sy * w + sx < w * h := by
  have h1 : sy * w + sx < (sy + 1) * w := by rw [Nat.succ_mul]; omega
  have h2 : (sy + 1) * w ≤ h * w := Nat.mul_le_mul_right w hy
  rw [Nat.mul_comm w h]
  omega

theorem to_size_t_of_lt (n : Nat) (h : n < 18446744073709551616) : to_size_t (n : Int) = n := by
  unfold to_size_t
  omega

theorem to_size_t_le (n : Nat) : to_size_t (n : Int) ≤ n := by
  unfold to_size_t
  omega

theorem cell_index_inj (w sx sy c r : Nat) (hx : sx < w) (hc : c < w)
    (h : r * w + c = sy * w + sx) : c = sx ∧ r = sy := by
  have hwpos : 0 < w := by omega
  have h1 : (r * w + c) % w = c := by
    rw [Nat.add_comm, Nat.add_mul_mod_self_right]; exact Nat.mod_eq_of_lt hc
  have h2 : (sy * w + sx) % w = sx := by
    rw [Nat.add_comm, Nat.add_mul_mod_self_right]; exact Nat.mod_eq_of_lt hx
  have hcs : c = sx := by rw [← h1, ← h2, h]
  subst hcs
  have : r * w = sy * w := by omega
  exact ⟨rfl, Nat.eq_of_mul_eq_mul_right hwpos this⟩

/-- C4: for a buffer of `width * height` cells (a cell count that `size_t` can
hold), any sprite and any `x`, `y`, `color`, `buffer_sprite_draw` changes no
cell at an index `>= width * height`, keeps `width` and `height`, and keeps
every pixel (column `c`, row `r`) that is not the target
`(x + xi, sprite.height - 1 + y - yi)`, in `size_t` arithmetic, of a nonzero
mask cell `(xi, yi)`. -/
theorem buffer_sprite_draw_frame (buffer : Buffer) (sprite : Sprite) (x y color : Nat)
    (hcells : buffer.width * buffer.height < 18446744073709551616) :
    (∀ i, buffer.width * buffer.height ≤ i →
        (buffer_sprite_draw buffer sprite x y color).data i = buffer.data i) ∧
      (buffer_sprite_draw buffer sprite x y color).width = buffer.width ∧
      (buffer_sprite_draw buffer sprite x y color).height = buffer.height ∧
      (∀ c r, c < buffer.width → r < buffer.height →
        (¬ ∃ xi yi, xi < sprite.width ∧ yi < sprite.height ∧
            sprite.data (to_size_t (yi * sprite.width + xi)) ≠ 0 ∧
            c = to_size_t (x + xi) ∧ r = to_size_t (sprite.height - 1 + y - yi)) →
        (buffer_sprite_draw buffer sprite x y color).data (r * buffer.width + c) =
          buffer.data (r * buffer.width + c)) := by
  obtain ⟨hw, hh, hd⟩ := buffer_sprite_draw_stamped buffer sprite x y color
  refine ⟨?_, hw, hh, ?_⟩
  · intro i hi
    by_contra hne
    obtain ⟨xi, yi, _, _, _, hsy, hsx, hidx⟩ := hd i hne
    have hlt := cell_index_lt _ _ _ _ hsx hsy
    have hle := to_size_t_le
      (to_size_t (sprite.height - 1 + y - yi) * buffer.width + to_size_t (x + xi))
    push_cast at hle
    omega
  · intro c r hc hr hno
    by_contra hne
    obtain ⟨xi, yi, hxi, hyi, hm, hsy, hsx, hidx⟩ := hd _ hne
    have hlt := cell_index_lt _ _ _ _ hsx hsy
    have heq := to_size_t_of_lt
      (to_size_t (sprite.height - 1 + y - yi) * buffer.width + to_size_t (x + xi))
      (by omega)
    push_cast at heq
    rw [heq] at hidx
    obtain ⟨h1, h2⟩ := cell_index_inj _ _ _ _ _ hsx hc hidx
    exact hno ⟨xi, yi, hxi, hyi, hm, h1, h2⟩

/-- C4, instance: the bullet sprite stamped at column 3, row 2 of a 4 x 4
buffer, where the top row of the sprite falls outside. -/
theorem buffer_sprite_draw_frame_witness :
    small_buffer.width * small_buffer.height < 18446744073709551616 ∧
      ((∀ i, small_buffer.width * small_buffer.height ≤ i →
        (buffer_sprite_draw small_buffer bullet_sprite 3 2 7).data i = small_buffer.data i) ∧
      (buffer_sprite_draw small_buffer bullet_sprite 3 2 7).width = small_buffer.width ∧
      (buffer_sprite_draw small_buffer bullet_sprite 3 2 7).height = small_buffer.height ∧
      (∀ c r, c < small_buffer.width → r < small_buffer.height →
        (¬ ∃ xi yi, xi < bullet_sprite.width ∧ yi < bullet_sprite.height ∧
            bullet_sprite.data (to_size_t (yi * bullet_sprite.width + xi)) ≠ 0 ∧
            c = to_size_t (3 + xi) ∧ r = to_size_t (bullet_sprite.height - 1 + 2 - yi)) →
        (buffer_sprite_draw small_buffer bullet_sprite 3 2 7).data (r * small_buffer.width + c) =
          small_buffer.data (r * small_buffer.width + c))) :=
  ⟨by decide, buffer_sprite_draw_frame small_buffer bullet_sprite 3 2 7 (by decide)⟩

/-! ## Animation clock -/

theorem clock_wrap (T P : Nat)
    (ht : T < if to_size_t (P : Int) = 0 then 18446744073709551616 else to_size_t (P : Int)) :
    (to_size_t ((T : Int) + 1) = to_size_t (P : Int) →
        (T + 1) % (if to_size_t (P : Int) = 0 then 18446744073709551616
          else to_size_t (P : Int)) = 0) ∧
      (to_size_t ((T : Int) + 1) ≠ to_size_t (P : Int) →
        (T + 1) % (if to_size_t (P : Int) = 0 then 18446744073709551616
          else to_size_t (P : Int)) = to_size_t ((T : Int) + 1)) := by
  unfold to_size_t at ht ⊢
  split_ifs at ht ⊢ with h1
  · constructor
    · intro h; omega
    · intro h; omega
  · constructor
    · intro h
      have : T + 1 = ((P : Int) % 18446744073709551616).toNat := by omega
      rw [this]
      exact Nat.mod_self _
    · intro h
      rw [Nat.mod_eq_of_lt (by omega)]
      omega

theorem animation_advance_loop (a : SpriteAnimation) (hloop : a.loop = true)
    (ht : a.time < clock_period a) :
    animation_advance a = some { a with time := (a.time + 1) % clock_period a } := by
  unfold animation_advance
  unfold clock_period at ht ⊢
  have hcast : ((a.num_frames : Int) * (a.frame_duration : Int)) =
      ((a.num_frames * a.frame_duration : Nat) : Int) := by push_cast; rfl
  rw [hcast] at ht ⊢
  obtain ⟨hz, hnz⟩ := clock_wrap a.time (a.num_frames * a.frame_duration) ht
  by_cases h : to_size_t ((a.time : Int) + 1) =
      to_size_t ((a.num_frames * a.frame_duration : Nat) : Int)
  · rw [if_pos h, if_pos hloop, hz h]
  · rw [if_neg h, hnz h]

theorem update_animation_n_loop (k : Nat) :
    ∀ (a : SpriteAnimation), a.loop = true → a.time < clock_period a →
      update_animation_n k (some a) =
        some (some { a with time := (a.time + k) % clock_period a }) := by
  induction k with
  | zero =>
    intro a _ ht
    simp [update_animation_n, Nat.mod_eq_of_lt ht]
  | succ k ih =>
    intro a hloop ht
    have hpos : 0 < clock_period a := by omega
    rw [update_animation_n, update_animation, animation_advance_loop a hloop ht]
    simp only
    have hlt : (a.time + 1) % clock_period a < clock_period a := Nat.mod_lt _ hpos
    have hstep := ih { a with time := (a.time + 1) % clock_period a } hloop hlt
    have hper : clock_period { a with time := (a.time + 1) % clock_period a } =
        clock_period a := rfl
    rw [hper] at hstep
    rw [hstep]
    simp only [Nat.mod_add_mod, Nat.add_assoc, Nat.add_comm 1 k]

theorem animation_advance_bound (a : SpriteAnimation) (hloop : a.loop = true)
    (hN : 1 ≤ a.num_frames) (hD : 1 ≤ a.frame_duration)
    (ht : a.time < a.num_frames * a.frame_duration) :
    ∃ a1, animation_advance a = some a1 ∧ a1.loop = a.loop ∧ a1.num_frames = a.num_frames ∧
      a1.frame_duration = a.frame_duration ∧ a1.frames = a.frames ∧
      a1.time < a.num_frames * a.frame_duration := by
  unfold animation_advance
  have hcast : ((a.num_frames : Int) * (a.frame_duration : Int)) =
      ((a.num_frames * a.frame_duration : Nat) : Int) := by push_cast; rfl
  rw [hcast]
  by_cases h : to_size_t ((a.time : Int) + 1) =
      to_size_t ((a.num_frames * a.frame_duration : Nat) : Int)
  · rw [if_pos h, if_pos hloop]
    exact ⟨_, rfl, rfl, rfl, rfl, rfl, Nat.mul_pos hN hD⟩
  · rw [if_neg h]
    refine ⟨_, rfl, rfl, rfl, rfl, rfl, ?_⟩
    simp only
    generalize a.num_frames * a.frame_duration = P at ht h
    unfold to_size_t at h ⊢
    omega

theorem update_animation_n_bound (k : Nat) :
    ∀ (a : SpriteAnimation), a.loop = true → 1 ≤ a.num_frames → 1 ≤ a.frame_duration →
      a.time < a.num_frames * a.frame_duration →
      ∃ ak, update_animation_n k (some a) = some (some ak) ∧ ak.loop = a.loop ∧
        ak.num_frames = a.num_frames ∧ ak.frame_duration = a.frame_duration ∧
        ak.frames = a.frames ∧ ak.time < a.num_frames * a.frame_duration := by
  induction k with
  | zero =>
    intro a _ _ _ ht
    exact ⟨a, rfl, rfl, rfl, rfl, rfl, ht⟩
  | succ k ih =>
    intro a hloop hN hD ht
    obtain ⟨a1, h1, hl1, hn1, hd1, hf1, ht1⟩ := animation_advance_bound a hloop hN hD ht
    obtain ⟨ak, h2, hl2, hn2, hd2, hf2, ht2⟩ :=
      ih a1 (hl1.trans hloop) (by omega) (by omega) (by rw [hn1, hd1]; exact ht1)
    refine ⟨ak, ?_, hl2.trans hl1, hn2.trans hn1, hd2.trans hd1, hf2.trans hf1, ?_⟩
    · rw [update_animation_n, update_animation, h1]
      exact h2
    · rw [hn1, hd1] at ht2
      exact ht2

/-- C6: for a looping animation with at least one frame, a frame duration of at
least one tick, `num_frames` entries in `frames` and `time` below
`num_frames * frame_duration`, the animation update again yields a `time` below
that bound, and so does every number `k` of updates; the render phase that
follows computes the frame index `time / frame_duration`, which is below
`num_frames`, and its access to `frames` is in range. -/
theorem looping_clock_invariant (a : SpriteAnimation) (k : Nat) (hloop : a.loop = true)
    (hN : 1 ≤ a.num_frames) (hD : 1 ≤ a.frame_duration)
    (hframes : a.frames.length = a.num_frames)
    (ht : a.time < a.num_frames * a.frame_duration) :
    (∃ a1, animation_advance a = some a1 ∧ a1.time < a.num_frames * a.frame_duration) ∧
      ∃ ak, update_animation_n k (some a) = some (some ak) ∧
        ak.time < a.num_frames * a.frame_duration ∧
        current_frame (some ak) = some (ak.time / a.frame_duration) ∧
        ak.time / a.frame_duration < a.num_frames ∧
        ∃ sprite, current_sprite (some ak) = some sprite := by
  constructor
  · obtain ⟨a1, h1, _, _, _, _, ht1⟩ := animation_advance_bound a hloop hN hD ht
    exact ⟨a1, h1, ht1⟩
  · obtain ⟨ak, h2, _, hn2, hd2, hf2, ht2⟩ := update_animation_n_bound k a hloop hN hD ht
    have hidx : ak.time / a.frame_duration < a.num_frames :=
      (Nat.div_lt_iff_lt_mul (by omega)).mpr ht2
    have hcf : current_frame (some ak) = some (ak.time / a.frame_duration) := by
      have hne : a.frame_duration ≠ 0 := by omega
      simp [current_frame, hne, hd2]
    refine ⟨ak, h2, ht2, hcf, hidx, ?_⟩
    have hlen : ak.time / a.frame_duration < ak.frames.length := by
      rw [hf2, hframes]; exact hidx
    refine ⟨ak.frames[ak.time / a.frame_duration], ?_⟩
    simp only [current_sprite, hcf]
    exact List.getElem?_eq_getElem hlen

/-- C6, instance: the configured animation after seven updates. -/
theorem looping_clock_invariant_witness :
    (initial_animation.loop = true ∧ 1 ≤ initial_animation.num_frames ∧
      1 ≤ initial_animation.frame_duration ∧
      initial_animation.frames.length = initial_animation.num_frames ∧
      initial_animation.time < initial_animation.num_frames * initial_animation.frame_duration) ∧
    ((∃ a1, animation_advance initial_animation = some a1 ∧
        a1.time < initial_animation.num_frames * initial_animation.frame_duration) ∧
      ∃ ak, update_animation_n 7 (some initial_animation) = some (some ak) ∧
        ak.time < initial_animation.num_frames * initial_animation.frame_duration ∧
        current_frame (some ak) = some (ak.time / initial_animation.frame_duration) ∧
        ak.time / initial_animation.frame_duration < initial_animation.num_frames ∧
        ∃ sprite, current_sprite (some ak) = some sprite) :=
  ⟨by decide,
    looping_clock_invariant initial_animation 7 (by decide) (by decide) (by decide)
      (by decide) (by decide)⟩

theorem clock_period_slow : clock_period slow_animation = 18446744073709551616 := by
  simp [clock_period, slow_animation, to_size_t]

theorem frame_after_slow (k : Nat) :
    frame_after slow_animation k =
      some ((k % 18446744073709551616) / 9223372036854775808) := by
  have h := update_animation_n_loop k slow_animation rfl
    (by rw [clock_period_slow]; simp [slow_animation])
  rw [clock_period_slow] at h
  unfold frame_after
  rw [h]
  simp only [current_frame]
  rw [if_neg (by simp [slow_animation])]
  simp [slow_animation]

/-- C7 as stated fails when `num_frames * frame_duration` exceeds `2 ^ 64`:
four frames of `2 ^ 63` ticks each give the `size_t` product zero, the clock
returns to zero after `2 ^ 64` updates, and the frame index is then 0, where
`(k mod (N * D)) / D` is 2. -/
theorem slow_animation_frame_index :
    slow_animation.loop = true ∧ 1 ≤ slow_animation.num_frames ∧
      1 ≤ slow_animation.frame_duration ∧ slow_animation.time = 0 ∧
      frame_after slow_animation 18446744073709551616 = some 0 ∧
      (18446744073709551616 % (slow_animation.num_frames * slow_animation.frame_duration)) /
        slow_animation.frame_duration = 2 := by
  refine ⟨rfl, by simp [slow_animation], by simp [slow_animation], rfl, ?_,
    by simp [slow_animation]⟩
  exact (frame_after_slow _).trans (by norm_num)

theorem to_size_t_pow : to_size_t ((18446744073709551616 : Nat) : Int) = 0 := by
  unfold to_size_t
  norm_num

theorem clock_period_of_fit (a : SpriteAnimation) (hN : 1 ≤ a.num_frames)
    (hD : 1 ≤ a.frame_duration)
    (hfit : a.num_frames * a.frame_duration ≤ 18446744073709551616) :
    clock_period a = a.num_frames * a.frame_duration := by
  have hpos : 0 < a.num_frames * a.frame_duration := Nat.mul_pos hN hD
  unfold clock_period
  have hcast : ((a.num_frames : Int) * (a.frame_duration : Int)) =
      ((a.num_frames * a.frame_duration : Nat) : Int) := by push_cast; rfl
  rw [hcast]
  generalize a.num_frames * a.frame_duration = P at hfit hpos
  by_cases hP : P = 18446744073709551616
  · subst hP
    rw [to_size_t_pow]
    simp
  · have hlt : P < 18446744073709551616 := by omega
    rw [to_size_t_of_lt P hlt]
    have : P ≠ 0 := by omega
    simp [this]

/-- C7, amended: for a looping animation with `N >= 1` frames of `D >= 1` ticks
started at time 0 whose product `N * D` is at most `2 ^ 64`, the frame index the
render phase computes after `k` animation updates is `(k mod (N * D)) / D` for
every `k`, hence the same after `k + N * D` updates as after `k`; for the
configured animation it is `(k mod 20) / 10`. -/
theorem looping_frame_periodic (a : SpriteAnimation) (k : Nat) (hloop : a.loop = true)
    (hN : 1 ≤ a.num_frames) (hD : 1 ≤ a.frame_duration) (h0 : a.time = 0)
    (hfit : a.num_frames * a.frame_duration ≤ 18446744073709551616) :
    frame_after a k = some ((k % (a.num_frames * a.frame_duration)) / a.frame_duration) ∧
      frame_after a (k + a.num_frames * a.frame_duration) = frame_after a k ∧
      frame_after initial_animation k = some ((k % 20) / 10) := by
  have key : ∀ (b : SpriteAnimation) (j : Nat), b.loop = true → 1 ≤ b.num_frames →
      1 ≤ b.frame_duration → b.time = 0 →
      b.num_frames * b.frame_duration ≤ 18446744073709551616 →
      frame_after b j = some ((j % (b.num_frames * b.frame_duration)) / b.frame_duration) := by
    intro b j hl hn hd hz hf
    have hp := clock_period_of_fit b hn hd hf
    have hpos : 0 < b.num_frames * b.frame_duration := Nat.mul_pos hn hd
    have h := update_animation_n_loop j b hl (by rw [hp, hz]; exact hpos)
    have hne : b.frame_duration ≠ 0 := by omega
    unfold frame_after
    rw [h, hp, hz]
    simp [current_frame, hne]
  refine ⟨key a k hloop hN hD h0 hfit, ?_, ?_⟩
  · rw [key a k hloop hN hD h0 hfit, key a _ hloop hN hD h0 hfit, Nat.add_mod_right]
  · exact key initial_animation k rfl (by decide) (by decide) rfl (by decide)

/-- C7, amended, instance: the configured animation after 25 updates. -/
theorem looping_frame_periodic_witness :
    (initial_animation.loop = true ∧ 1 ≤ initial_animation.num_frames ∧
      1 ≤ initial_animation.frame_duration ∧ initial_animation.time = 0 ∧
      initial_animation.num_frames * initial_animation.frame_duration ≤
        18446744073709551616) ∧
    (frame_after initial_animation 25 =
        some ((25 % (initial_animation.num_frames * initial_animation.frame_duration)) /
          initial_animation.frame_duration) ∧
      frame_after initial_animation
          (25 + initial_animation.num_frames * initial_animation.frame_duration) =
        frame_after initial_animation 25 ∧
      frame_after initial_animation 25 = some ((25 % 20) / 10)) :=
  ⟨by decide,
    looping_frame_periodic initial_animation 25 (by decide) (by decide) (by decide)
      (by decide) (by decide)⟩

/-! ## The exhausted animation -/

theorem draw_aliens_some (game : Game) (p : Option SpriteAnimation) (sprite : Sprite)
    (h : current_sprite p = some sprite) (buffer : Buffer) :
    ∃ b, draw_aliens buffer game p = some b := by
  unfold draw_aliens
  rw [h]
  generalize List.range game.num_aliens = l
  induction l generalizing buffer with
  | nil => exact ⟨buffer, rfl⟩
  | cons ai t ih =>
    rw [List.foldlM_cons]
    exact ih _

theorem main_loop_body_some (s : State) (events : List KeyEvent) (a : SpriteAnimation)
    (sprite : Sprite) (ha : s.alien_animation = some a)
    (h : current_sprite (some a) = some sprite) :
    ∃ s1, main_loop_body s events = some s1 ∧ s1.alien_animation = animation_advance a ∧
      s1.game = (simulate s.game s.globals events).1 ∧
      s1.globals = (simulate s.game s.globals events).2.2 := by
  obtain ⟨b, hb⟩ := draw_aliens_some s.game (some a) sprite h (buffer_clear s.buffer clear_color)
  unfold main_loop_body render
  rw [ha, hb]
  exact ⟨_, rfl, rfl, rfl, rfl⟩

theorem main_loop_body_null (s : State) (events : List KeyEvent)
    (ha : s.alien_animation = none) : main_loop_body s events = none := by
  unfold main_loop_body
  rw [ha]
  cases render s.buffer s.game none <;> rfl

theorem run_loop_append (l1 l2 : List (List KeyEvent)) :
    ∀ s : State, run_loop s (l1 ++ l2) =
      match run_loop s l1 with
      | none => none
      | some s1 => run_loop s1 l2 := by
  induction l1 with
  | nil => intro s; rfl
  | cons e t ih =>
    intro s
    rw [List.cons_append, run_loop, run_loop]
    cases main_loop_body s e with
    | none => rfl
    | some s1 => exact ih s1

theorem current_sprite_one_shot (t : Nat) (ht : t < 20) :
    ∃ sprite, current_sprite (some (one_shot_at t)) = some sprite := by
  have hidx : t / 10 = 0 ∨ t / 10 = 1 := by omega
  rcases hidx with h | h
  · exact ⟨alien_sprite, by
      simp [current_sprite, current_frame, one_shot_at, one_shot_animation,
        initial_animation, h]⟩
  · exact ⟨alien_sprite1, by
      simp [current_sprite, current_frame, one_shot_at, one_shot_animation,
        initial_animation, h]⟩

theorem animation_advance_one_shot (t : Nat) (ht : t < 19) :
    animation_advance (one_shot_at t) = some (one_shot_at (t + 1)) := by
  have h1 : to_size_t ((t : Int) + 1) = t + 1 := by unfold to_size_t; omega
  have h2 : to_size_t ((2 : Nat) * (10 : Nat)) = 20 := by decide
  simp only [animation_advance, one_shot_at, one_shot_animation, initial_animation, h1, h2]
  rw [if_neg (by omega)]

theorem animation_advance_one_shot_last : animation_advance (one_shot_at 19) = none := by
  rfl

theorem draw_aliens_null (buffer : Buffer) (game : Game) (h : 0 < game.num_aliens) :
    draw_aliens buffer game none = none := by
  unfold draw_aliens
  obtain ⟨n, hn⟩ : ∃ n, game.num_aliens = n + 1 := ⟨game.num_aliens - 1, by omega⟩
  rw [hn, List.range_succ_eq_map, List.foldlM_cons]
  rfl

theorem simulate_bullets_from_frame (bs : Sprite) :
    ∀ (n : Nat) (game : Game) (bi : Nat), game.num_bullets - bi = n →
      (simulate_bullets_from bs game bi).width = game.width ∧
      (simulate_bullets_from bs game bi).height = game.height ∧
      (simulate_bullets_from bs game bi).num_aliens = game.num_aliens ∧
      (simulate_bullets_from bs game bi).aliens = game.aliens ∧
      (simulate_bullets_from bs game bi).player = game.player ∧
      (simulate_bullets_from bs game bi).num_bullets ≤ game.num_bullets := by
  intro n
  induction n with
  | zero =>
    intro game bi h
    rw [simulate_bullets_from]
    have : ¬ bi < game.num_bullets := by omega
    simp [this]
  | succ n ih =>
    intro game bi h
    rw [simulate_bullets_from]
    have hlt : bi < game.num_bullets := by omega
    simp only [hlt, if_true]
    split
    · obtain ⟨h1, h2, h3, h4, h5, h6⟩ := ih
        { game with
          bullets := Function.update
            (Function.update game.bullets bi (bullet_advance (game.bullets bi))) bi
            (Function.update game.bullets bi (bullet_advance (game.bullets bi))
              (game.num_bullets - 1))
          num_bullets := game.num_bullets - 1 } bi (by simp only; omega)
      refine ⟨h1, h2, h3, h4, h5, ?_⟩
      simp only at h6
      omega
    · obtain ⟨h1, h2, h3, h4, h5, h6⟩ := ih
        { game with
          bullets := Function.update game.bullets bi (bullet_advance (game.bullets bi)) }
        (bi + 1) (by simp only; omega)
      exact ⟨h1, h2, h3, h4, h5, h6⟩

theorem simulate_bullets_frame (bs : Sprite) (game : Game) :
    (simulate_bullets bs game).width = game.width ∧
      (simulate_bullets bs game).height = game.height ∧
      (simulate_bullets bs game).num_aliens = game.num_aliens ∧
      (simulate_bullets bs game).aliens = game.aliens ∧
      (simulate_bullets bs game).player = game.player ∧
      (simulate_bullets bs game).num_bullets ≤ game.num_bullets :=
  simulate_bullets_from_frame bs _ game 0 rfl

theorem simulate_player_frame (ps : Sprite) (move_dir : Int) (game : Game) :
    (simulate_player ps move_dir game).1.width = game.width ∧
      (simulate_player ps move_dir game).1.height = game.height ∧
      (simulate_player ps move_dir game).1.num_aliens = game.num_aliens ∧
      (simulate_player ps move_dir game).1.aliens = game.aliens ∧
      (simulate_player ps move_dir game).1.num_bullets = game.num_bullets ∧
      (simulate_player ps move_dir game).1.bullets = game.bullets ∧
      (simulate_player ps move_dir game).1.player.y = game.player.y ∧
      (simulate_player ps move_dir game).1.player.life = game.player.life := by
  unfold simulate_player
  split_ifs <;> exact ⟨rfl, rfl, rfl, rfl, rfl, rfl, rfl, rfl⟩

theorem process_fire_frame (ps : Sprite) (fire : Bool) (game : Game) :
    (process_fire ps fire game).1.width = game.width ∧
      (process_fire ps fire game).1.height = game.height ∧
      (process_fire ps fire game).1.num_aliens = game.num_aliens ∧
      (process_fire ps fire game).1.aliens = game.aliens ∧
      (process_fire ps fire game).1.player = game.player := by
  unfold process_fire
  split_ifs <;> exact ⟨rfl, rfl, rfl, rfl, rfl⟩

theorem simulate_num_aliens (game : Game) (globals : Globals) (events : List KeyEvent) :
    (simulate game globals events).1.num_aliens = game.num_aliens := by
  unfold simulate
  simp only
  rw [(process_fire_frame _ _ _).2.2.1, (simulate_player_frame _ _ _).2.2.1,
    (simulate_bullets_frame _ _).2.2.1]

theorem main_loop_body_game (s s1 : State) (events : List KeyEvent)
    (h : main_loop_body s events = some s1) :
    s1.game = (simulate s.game s.globals events).1 ∧
      s1.player_mov_dir = (simulate s.game s.globals events).2.1 ∧
      s1.globals = (simulate s.game s.globals events).2.2 := by
  unfold main_loop_body at h
  split at h
  · exact absurd h (by simp)
  · split at h
    · exact absurd h (by simp)
    · simp only [Option.some.injEq] at h
      subst h
      exact ⟨rfl, rfl, rfl⟩

theorem run_loop_num_aliens (l : List (List KeyEvent)) :
    ∀ (s s1 : State), run_loop s l = some s1 → s1.game.num_aliens = s.game.num_aliens := by
  induction l with
  | nil =>
    intro s s1 h
    simp only [run_loop, Option.some.injEq] at h
    rw [h]
  | cons e t ih =>
    intro s s1 h
    rw [run_loop] at h
    cases hb : main_loop_body s e with
    | none => rw [hb] at h; exact absurd h (by simp)
    | some s2 =>
      rw [hb] at h
      rw [ih s2 s1 h, (main_loop_body_game s s2 e hb).1]
      exact simulate_num_aliens _ _ _

theorem simulate_game_running (game : Game) (globals : Globals) :
    (simulate game globals []).2.2.game_running = globals.game_running := rfl

theorem run_loop_one_shot (k : Nat) :
    ∀ (t : Nat) (s : State), s.alien_animation = some (one_shot_at t) → t + k ≤ 19 →
      ∃ s1, run_loop s (List.replicate k []) = some s1 ∧
        s1.alien_animation = some (one_shot_at (t + k)) ∧
        s1.globals.game_running = s.globals.game_running := by
  induction k with
  | zero => intro t s hs _; exact ⟨s, rfl, hs, rfl⟩
  | succ k ih =>
    intro t s hs ht
    obtain ⟨sprite, hsp⟩ := current_sprite_one_shot t (by omega)
    obtain ⟨s1, h1, ha1, _, hg1⟩ := main_loop_body_some s [] _ sprite hs hsp
    rw [animation_advance_one_shot t (by omega)] at ha1
    obtain ⟨s2, h2, ha2, hg2⟩ := ih (t + 1) s1 ha1 (by omega)
    refine ⟨s2, ?_, ?_, ?_⟩
    · rw [List.replicate_succ, run_loop, h1]
      exact h2
    · rw [ha2]
      congr 2
      omega
    · rw [hg2, hg1]
      exact simulate_game_running _ _

/-- C5, the code at the failing input: with the configured animation made
non-looping (2 frames of 10 ticks, time 0) the loop body runs 19 times with the
animation alive, its 20th run deletes the animation and leaves the pointer
null with `game_running` still set, and the 21st run dereferences the null
pointer (in the alien draw loop and in the animation update), so it has no
defined result. -/
theorem one_shot_animation_dereferenced :
    (∃ s, run_loop one_shot_state (List.replicate 19 []) = some s ∧
        s.alien_animation = some (one_shot_at 19)) ∧
      (∃ s, run_loop one_shot_state (List.replicate 20 []) = some s ∧
        s.alien_animation = none ∧ s.globals.game_running = true ∧
        0 < s.game.num_aliens ∧
        current_frame s.alien_animation = none ∧
        draw_aliens (buffer_clear s.buffer clear_color) s.game s.alien_animation = none ∧
        update_animation s.alien_animation = none ∧
        main_loop_body s [] = none) ∧
      run_loop one_shot_state (List.replicate 21 []) = none := by
  obtain ⟨s19, h19, ha19, hr19⟩ := run_loop_one_shot 19 0 one_shot_state rfl (by omega)
  obtain ⟨sprite, hsp⟩ := current_sprite_one_shot 19 (by omega)
  obtain ⟨s20, h20, ha20, _, hg20⟩ := main_loop_body_some s19 [] _ sprite ha19 hsp
  have hr20 : s20.globals.game_running = true := by
    rw [hg20, simulate_game_running, hr19]
    rfl
  rw [animation_advance_one_shot_last] at ha20
  have hrun20 : run_loop one_shot_state (List.replicate 20 []) = some s20 := by
    have := run_loop_append (List.replicate 19 []) [[]] one_shot_state
    rw [h19] at this
    simp only [run_loop, h20] at this
    exact this
  have hal : 0 < s20.game.num_aliens := by
    rw [run_loop_num_aliens _ _ _ hrun20]
    decide
  refine ⟨⟨s19, h19, ha19⟩, ⟨s20, hrun20, ha20, hr20, hal, ?_, ?_, ?_, ?_⟩, ?_⟩
  · rw [ha20]; rfl
  · rw [ha20]; exact draw_aliens_null _ _ hal
  · rw [ha20]; rfl
  · exact main_loop_body_null s20 [] ha20
  · have := run_loop_append (List.replicate 20 []) [[]] one_shot_state
    rw [hrun20] at this
    simp only [run_loop, main_loop_body_null s20 [] ha20] at this
    exact this

/-! ## Fire handling -/

theorem simulate_bullets_zero (bs : Sprite) (game : Game) (h : game.num_bullets = 0) :
    simulate_bullets bs game = game := by
  unfold simulate_bullets
  rw [simulate_bullets_from]
  simp [h]

theorem process_fire_set (ps : Sprite) (game : Game)
    (hn : game.num_bullets < GAME_MAX_BULLET) :
    process_fire ps true game =
      ({ game with
         bullets := Function.update game.bullets game.num_bullets
           { x := to_size_t (game.player.x + ps.width / 2)
             y := to_size_t (game.player.y + ps.height)
             dir := 2 }
         num_bullets := game.num_bullets + 1 }, false) := by
  have hn1 : game.num_bullets < 128 := hn
  have hcount : to_size_t ((game.num_bullets : Int) + 1) = game.num_bullets + 1 := by
    unfold to_size_t; omega
  unfold process_fire
  rw [if_pos ⟨rfl, hn⟩, hcount]

/-- C8: with `n = num_bullets < 128` and the fire flag set, the fire handling
stores `(player.x + player_sprite.width / 2, player.y + player_sprite.height,
dir = 2)` (the sums as `size_t`, the plain sums when they fit) in `bullets[n]`,
makes the count `n + 1`, leaves `bullets[0 .. n)` alone and clears the flag; in
the initial state (no bullet, player at (117, 32), sprite 11 x 7) a tick that
finds the flag set ends with exactly one live bullet, `(122, 39, +2)`. -/
theorem process_fire_spawn (player_sprite1 : Sprite) (game : Game)
    (hn : game.num_bullets < GAME_MAX_BULLET) :
    (process_fire player_sprite1 true game).1.bullets game.num_bullets =
        { x := to_size_t (game.player.x + player_sprite1.width / 2)
          y := to_size_t (game.player.y + player_sprite1.height)
          dir := 2 } ∧
      (game.player.x + player_sprite1.width / 2 < 18446744073709551616 →
        game.player.y + player_sprite1.height < 18446744073709551616 →
        (process_fire player_sprite1 true game).1.bullets game.num_bullets =
          { x := game.player.x + player_sprite1.width / 2
            y := game.player.y + player_sprite1.height
            dir := 2 }) ∧
      (process_fire player_sprite1 true game).1.num_bullets = game.num_bullets + 1 ∧
      (∀ i, i < game.num_bullets →
        (process_fire player_sprite1 true game).1.bullets i = game.bullets i) ∧
      (process_fire player_sprite1 true game).2 = false ∧
      live_bullets (process_fire player_sprite true initial_game).1 =
        [{ x := 122, y := 39, dir := 2 }] ∧
      ∀ events, live_bullets
        (simulate initial_game { initial_globals with fire_pressed := true } events).1 =
          [{ x := 122, y := 39, dir := 2 }] := by
  have hfire := process_fire_set player_sprite1 game hn
  have hinit : live_bullets (process_fire player_sprite true initial_game).1 =
      [{ x := 122, y := 39, dir := 2 }] := by decide
  refine ⟨?_, ?_, ?_, ?_, ?_, hinit, ?_⟩
  · rw [hfire]; simp
  · intro hx hy
    rw [hfire]
    simp only [Function.update_same]
    have h1 : to_size_t ((game.player.x : Int) + (player_sprite1.width : Int) / 2) =
        game.player.x + player_sprite1.width / 2 := by
      unfold to_size_t; omega
    have h2 : to_size_t ((game.player.y : Int) + (player_sprite1.height : Int)) =
        game.player.y + player_sprite1.height := by
      unfold to_size_t; omega
    rw [h1, h2]
  · rw [hfire]
  · intro i hi
    rw [hfire]
    simp only
    exact Function.update_noteq (by omega) _ _
  · rw [hfire]
  · intro events
    have hb : simulate_bullets bullet_sprite initial_game = initial_game :=
      simulate_bullets_zero _ _ rfl
    have hp : (simulate_player player_sprite 0 initial_game).1 = initial_game := by
      unfold simulate_player
      rw [if_neg (by decide)]
    unfold simulate
    simp only [hb, initial_globals, hp]
    exact hinit

/-- C8, instance: the initial game. -/
theorem process_fire_spawn_witness :
    initial_game.num_bullets < GAME_MAX_BULLET ∧
      ((process_fire player_sprite true initial_game).1.bullets initial_game.num_bullets =
        { x := to_size_t (initial_game.player.x + player_sprite.width / 2)
          y := to_size_t (initial_game.player.y + player_sprite.height)
          dir := 2 } ∧
      (initial_game.player.x + player_sprite.width / 2 < 18446744073709551616 →
        initial_game.player.y + player_sprite.height < 18446744073709551616 →
        (process_fire player_sprite true initial_game).1.bullets initial_game.num_bullets =
          { x := initial_game.player.x + player_sprite.width / 2
            y := initial_game.player.y + player_sprite.height
            dir := 2 }) ∧
      (process_fire player_sprite true initial_game).1.num_bullets =
        initial_game.num_bullets + 1 ∧
      (∀ i, i < initial_game.num_bullets →
        (process_fire player_sprite true initial_game).1.bullets i = initial_game.bullets i) ∧
      (process_fire player_sprite true initial_game).2 = false ∧
      live_bullets (process_fire player_sprite true initial_game).1 =
        [{ x := 122, y := 39, dir := 2 }] ∧
      ∀ events, live_bullets
        (simulate initial_game { initial_globals with fire_pressed := true } events).1 =
          [{ x := 122, y := 39, dir := 2 }]) :=
  ⟨by decide, process_fire_spawn player_sprite initial_game (by decide)⟩

theorem key_callback_fire (g : Globals) (key action : Int) :
    (key_callback g key action).fire_pressed = true ↔
      (g.fire_pressed = true ∨ (key = GLFW_KEY_SPACE ∧ action = GLFW_RELEASE)) := by
  unfold key_callback
  split_ifs with h1 h2 h3 h4 h5 h6 h7 h8 h9 <;>
    simp_all [GLFW_KEY_ESCAPE, GLFW_KEY_RIGHT, GLFW_KEY_LEFT, GLFW_KEY_SPACE, GLFW_PRESS,
      GLFW_RELEASE]

theorem poll_events_fire (events : List KeyEvent) :
    ∀ g : Globals, (poll_events g events).fire_pressed = true ↔
      (g.fire_pressed = true ∨ ∃ e ∈ events, is_space_release e) := by
  induction events with
  | nil => intro g; simp [poll_events]
  | cons e t ih =>
    intro g
    have h := ih (key_callback g e.key e.action)
    unfold poll_events at h ⊢
    rw [List.foldl_cons, h, key_callback_fire]
    simp only [is_space_release, List.mem_cons, exists_eq_or_imp]
    tauto

theorem process_fire_idle (ps : Sprite) (game : Game) :
    process_fire ps false game = (game, false) := by
  unfold process_fire
  rw [if_neg (by simp)]

theorem process_fire_flag (ps : Sprite) (fire : Bool) (game : Game) :
    (process_fire ps fire game).2 = false := by
  unfold process_fire
  split_ifs <;> rfl

theorem before_fire_num_bullets (game : Game) (globals : Globals) :
    (before_fire game globals).num_bullets ≤ game.num_bullets := by
  unfold before_fire
  rw [(simulate_player_frame _ _ _).2.2.2.2.1]
  exact (simulate_bullets_frame _ _).2.2.2.2.2

theorem simulate_idle (game : Game) (globals : Globals) (events : List KeyEvent)
    (hflag : globals.fire_pressed = false) :
    tick_spawned game globals = 0 ∧
      (simulate game globals events).1 = before_fire game globals ∧
      (simulate game globals events).2.2 =
        poll_events { globals with fire_pressed := false } events := by
  unfold tick_spawned spawned simulate before_fire
  rw [hflag]
  simp only [process_fire_idle]
  refine ⟨?_, trivial, ?_⟩
  · exact Nat.sub_self _
  · trivial

theorem run_simulate_quiet (quiet : List (List KeyEvent)) :
    ∀ (game : Game) (globals : Globals), globals.fire_pressed = false →
      (∀ P ∈ quiet, ∀ e ∈ P, ¬ is_space_release e) →
      spawn_total game globals quiet = 0 ∧
        (run_simulate game globals quiet).2.fire_pressed = false ∧
        (run_simulate game globals quiet).1.num_bullets ≤ game.num_bullets := by
  induction quiet with
  | nil => intro game globals hflag _; exact ⟨rfl, hflag, Nat.le_refl _⟩
  | cons P rest ih =>
    intro game globals hflag hq
    obtain ⟨h0, hg, hgl⟩ := simulate_idle game globals P hflag
    have hflag1 : (simulate game globals P).2.2.fire_pressed = false := by
      rw [hgl]
      cases hfp : (poll_events { globals with fire_pressed := false } P).fire_pressed with
      | false => rfl
      | true =>
        rcases (poll_events_fire P _).mp hfp with h | ⟨e, he, hrel⟩
        · exact absurd h (by simp)
        · exact absurd hrel (hq P (List.mem_cons_self _ _) e he)
    obtain ⟨h1, h2, h3⟩ := ih (simulate game globals P).1 (simulate game globals P).2.2 hflag1
      (fun Q hQ => hq Q (List.mem_cons_of_mem _ hQ))
    refine ⟨?_, h2, ?_⟩
    · rw [spawn_total, h0, h1]
    · rw [run_simulate]
      refine h3.trans ?_
      rw [hg]
      exact before_fire_num_bullets game globals

theorem spawn_total_append (l1 l2 : List (List KeyEvent)) :
    ∀ (game : Game) (globals : Globals),
      spawn_total game globals (l1 ++ l2) =
        spawn_total game globals l1 +
          spawn_total (run_simulate game globals l1).1 (run_simulate game globals l1).2 l2 := by
  induction l1 with
  | nil => intro game globals; simp [spawn_total, run_simulate]
  | cons P rest ih =>
    intro game globals
    rw [List.cons_append, spawn_total, spawn_total, run_simulate, ih, Nat.add_assoc]

theorem run_simulate_append (l1 l2 : List (List KeyEvent)) :
    ∀ (game : Game) (globals : Globals),
      run_simulate game globals (l1 ++ l2) =
        run_simulate (run_simulate game globals l1).1 (run_simulate game globals l1).2 l2 := by
  induction l1 with
  | nil => intro game globals; rfl
  | cons P rest ih =>
    intro game globals
    rw [List.cons_append, run_simulate, run_simulate, ih]

/-- C9: the fire flag is false after every fire handling, a fire handling that
finds the flag false creates no bullet and leaves the game alone, and
`key_callback` raises the flag exactly on a SPACE release.  Hence, starting
with the flag down, a SPACE key pressed in the poll of one tick, held through
the `N >= 1` following ticks (no SPACE release polled before the end of the
last of them) and released in the poll of that last tick creates exactly one
bullet over all these ticks and the tick that reads the flag, provided the live
count is below 128 when that tick handles the flag. -/
theorem fire_edge_triggered (N : Nat) (game : Game) (globals : Globals)
    (holds : List (List KeyEvent)) (release after : List KeyEvent)
    (hN : 1 ≤ N) (hlen : holds.length = N) (hflag : globals.fire_pressed = false)
    (hpress : ∃ P, holds.head? = some P ∧
      ({ key := GLFW_KEY_SPACE, action := GLFW_PRESS } : KeyEvent) ∈ P)
    (hheld : ∀ P ∈ holds, ∀ e ∈ P, ¬ is_space_release e)
    (hrel : ∃ e ∈ release, is_space_release e)
    (hroom : (before_fire (run_simulate game globals (holds ++ [release])).1
      (run_simulate game globals (holds ++ [release])).2).num_bullets < GAME_MAX_BULLET) :
    (∀ (ps : Sprite) (fire : Bool) (g : Game), (process_fire ps fire g).2 = false) ∧
      (∀ (ps : Sprite) (g : Game),
        (process_fire ps false g).1 = g ∧ spawned ps false g = 0) ∧
      (∀ (g : Globals) (key action : Int),
        (key_callback g key action).fire_pressed = true ↔
          (g.fire_pressed = true ∨ (key = GLFW_KEY_SPACE ∧ action = GLFW_RELEASE))) ∧
      (holds ++ [release, after]).length = N + 2 ∧
      spawn_total game globals holds = 0 ∧
      spawn_total game globals (holds ++ [release, after]) = 1 := by
  obtain ⟨hq0, hqf, _⟩ := run_simulate_quiet holds game globals hflag hheld
  obtain ⟨_, _, _⟩ := hpress
  have hticks : (holds ++ [release, after]).length = N + 2 := by
    have hpos : 0 < N := hN
    rw [List.length_append, hlen]
    rfl
  refine ⟨process_fire_flag, ?_, key_callback_fire, hticks, hq0, ?_⟩
  · intro ps g
    unfold spawned
    rw [process_fire_idle]
    exact ⟨rfl, Nat.sub_self _⟩
  · have hsplit : holds ++ [release, after] = (holds ++ [release]) ++ [after] := by simp
    rw [hsplit, spawn_total_append, spawn_total_append, hq0]
    obtain ⟨h0, _, hgl⟩ := simulate_idle (run_simulate game globals holds).1
      (run_simulate game globals holds).2 release hqf
    have hset : (run_simulate game globals (holds ++ [release])).2.fire_pressed = true := by
      rw [run_simulate_append]
      simp only [run_simulate]
      rw [hgl]
      exact (poll_events_fire release _).mpr (Or.inr hrel)
    simp only [spawn_total, h0, Nat.add_zero, Nat.zero_add]
    unfold tick_spawned spawned
    rw [hset]
    rw [process_fire_set player_sprite _ hroom]
    simp only
    omega

theorem process_fire_num_bullets (ps : Sprite) (fire : Bool) (game : Game) :
    (process_fire ps fire game).1.num_bullets ≤ game.num_bullets + 1 ∧
      (game.num_bullets ≤ GAME_MAX_BULLET →
        (process_fire ps fire game).1.num_bullets ≤ GAME_MAX_BULLET) := by
  by_cases h : fire = true ∧ game.num_bullets < GAME_MAX_BULLET
  · obtain ⟨hf, hn⟩ := h
    subst hf
    rw [process_fire_set ps game hn]
    exact ⟨Nat.le_refl _, fun _ => hn⟩
  · unfold process_fire
    rw [if_neg h]
    exact ⟨Nat.le_succ _, fun hle => hle⟩

theorem simulate_num_bullets (game : Game) (globals : Globals) (events : List KeyEvent) :
    (simulate game globals events).1.num_bullets ≤ game.num_bullets + 1 ∧
      (game.num_bullets ≤ GAME_MAX_BULLET →
        (simulate game globals events).1.num_bullets ≤ GAME_MAX_BULLET) := by
  have hb := before_fire_num_bullets game globals
  have hf := process_fire_num_bullets player_sprite globals.fire_pressed
    (before_fire game globals)
  have hs : (simulate game globals events).1 =
      (process_fire player_sprite globals.fire_pressed (before_fire game globals)).1 := rfl
  rw [hs]
  exact ⟨by omega, fun hle => hf.2 (by omega)⟩

theorem run_simulate_num_bullets (l : List (List KeyEvent)) :
    ∀ (game : Game) (globals : Globals),
      (run_simulate game globals l).1.num_bullets ≤ game.num_bullets + l.length := by
  induction l with
  | nil => intro game globals; exact Nat.le_refl _
  | cons P rest ih =>
    intro game globals
    rw [run_simulate, List.length_cons]
    have h1 := ih (simulate game globals P).1 (simulate game globals P).2.2
    have h2 := (simulate_num_bullets game globals P).1
    omega

/-- C9, instance: SPACE pressed, held for two ticks (one repeat event) and
released, from the initial game. -/
theorem fire_edge_triggered_witness :
    (1 ≤ 2 ∧
      ([[{ key := GLFW_KEY_SPACE, action := GLFW_PRESS }],
        [{ key := GLFW_KEY_SPACE, action := GLFW_REPEAT }]] : List (List KeyEvent)).length = 2 ∧
      initial_globals.fire_pressed = false) ∧
    ((∀ (ps : Sprite) (fire : Bool) (g : Game), (process_fire ps fire g).2 = false) ∧
      (∀ (ps : Sprite) (g : Game),
        (process_fire ps false g).1 = g ∧ spawned ps false g = 0) ∧
      (∀ (g : Globals) (key action : Int),
        (key_callback g key action).fire_pressed = true ↔
          (g.fire_pressed = true ∨ (key = GLFW_KEY_SPACE ∧ action = GLFW_RELEASE))) ∧
      ([[{ key := GLFW_KEY_SPACE, action := GLFW_PRESS }],
          [{ key := GLFW_KEY_SPACE, action := GLFW_REPEAT }]] ++
        [[{ key := GLFW_KEY_SPACE, action := GLFW_RELEASE }], []] :
          List (List KeyEvent)).length = 2 + 2 ∧
      spawn_total initial_game initial_globals
        [[{ key := GLFW_KEY_SPACE, action := GLFW_PRESS }],
          [{ key := GLFW_KEY_SPACE, action := GLFW_REPEAT }]] = 0 ∧
      spawn_total initial_game initial_globals
        ([[{ key := GLFW_KEY_SPACE, action := GLFW_PRESS }],
          [{ key := GLFW_KEY_SPACE, action := GLFW_REPEAT }]] ++
        [[{ key := GLFW_KEY_SPACE, action := GLFW_RELEASE }], []]) = 1) :=
  ⟨by decide,
    fire_edge_triggered 2 initial_game initial_globals
      [[{ key := GLFW_KEY_SPACE, action := GLFW_PRESS }],
        [{ key := GLFW_KEY_SPACE, action := GLFW_REPEAT }]]
      [{ key := GLFW_KEY_SPACE, action := GLFW_RELEASE }] []
      (by decide) (by decide) (by decide)
      ⟨_, rfl, List.mem_singleton.mpr rfl⟩
      (by
        intro P hP e he
        simp only [List.mem_cons, List.mem_singleton, List.not_mem_nil, or_false] at hP
        rcases hP with hP | hP <;> subst hP <;>
          simp only [List.mem_singleton] at he <;> subst he <;>
          simp [is_space_release, GLFW_RELEASE, GLFW_PRESS, GLFW_REPEAT])
      ⟨_, List.mem_singleton.mpr rfl, rfl, rfl⟩
      (by
        have h1 := before_fire_num_bullets
          (run_simulate initial_game initial_globals
            ([[{ key := GLFW_KEY_SPACE, action := GLFW_PRESS }],
              [{ key := GLFW_KEY_SPACE, action := GLFW_REPEAT }]] ++
            [[{ key := GLFW_KEY_SPACE, action := GLFW_RELEASE }]])).1
          (run_simulate initial_game initial_globals
            ([[{ key := GLFW_KEY_SPACE, action := GLFW_PRESS }],
              [{ key := GLFW_KEY_SPACE, action := GLFW_REPEAT }]] ++
            [[{ key := GLFW_KEY_SPACE, action := GLFW_RELEASE }]])).2
        have h2 := run_simulate_num_bullets
          ([[{ key := GLFW_KEY_SPACE, action := GLFW_PRESS }],
              [{ key := GLFW_KEY_SPACE, action := GLFW_REPEAT }]] ++
            [[{ key := GLFW_KEY_SPACE, action := GLFW_RELEASE }]])
          initial_game initial_globals
        have h3 : initial_game.num_bullets = 0 := rfl
        have h4 : GAME_MAX_BULLET = 128 := rfl
        simp only [List.length_append, List.length_cons, List.length_nil] at h2
        omega)⟩

/-! ## Capacity -/

/-- C10: when the fire handling runs with the flag set and `num_bullets = 128`
it creates no bullet and returns the game as it was (the bullet cells and the
count included); whatever the flag and the count, it writes no bullet cell at
an index `>= 128`; hence the simulation of a tick, and every complete
iteration of the loop, keeps `num_bullets <= 128` for every input. -/
theorem bullet_capacity (ps : Sprite) (game : Game)
    (hfull : game.num_bullets = GAME_MAX_BULLET) :
    (process_fire ps true game).1 = game ∧
      spawned ps true game = 0 ∧
      (process_fire ps true game).1.num_bullets = 128 ∧
      (∀ (fire : Bool) (g : Game) (i : Nat), GAME_MAX_BULLET ≤ i →
        (process_fire ps fire g).1.bullets i = g.bullets i) ∧
      (∀ (g : Game) (globals : Globals) (events : List KeyEvent),
        g.num_bullets ≤ GAME_MAX_BULLET →
        (simulate g globals events).1.num_bullets ≤ GAME_MAX_BULLET) ∧
      (∀ (s s1 : State) (events : List KeyEvent), main_loop_body s events = some s1 →
        s.game.num_bullets ≤ GAME_MAX_BULLET → s1.game.num_bullets ≤ GAME_MAX_BULLET) ∧
      (∀ events, ∃ s1, main_loop_body initial_state events = some s1 ∧
        s1.game.num_bullets ≤ GAME_MAX_BULLET) := by
  have hsame : process_fire ps true game = (game, false) := by
    unfold process_fire
    rw [if_neg (by rw [hfull]; simp)]
  have hbody : ∀ (s s1 : State) (events : List KeyEvent), main_loop_body s events = some s1 →
      s.game.num_bullets ≤ GAME_MAX_BULLET → s1.game.num_bullets ≤ GAME_MAX_BULLET := by
    intro s s1 events hb hle
    rw [(main_loop_body_game s s1 events hb).1]
    exact (simulate_num_bullets s.game s.globals events).2 hle
  refine ⟨by rw [hsame], ?_, ?_, ?_, ?_, hbody, ?_⟩
  · unfold spawned
    rw [hsame]
    exact Nat.sub_self _
  · rw [hsame]
    exact hfull
  · intro fire g i hi
    by_cases h : fire = true ∧ g.num_bullets < GAME_MAX_BULLET
    · obtain ⟨hf, hn⟩ := h
      subst hf
      rw [process_fire_set ps g hn]
      exact Function.update_noteq (by omega) _ _
    · unfold process_fire
      rw [if_neg h]
  · intro g globals events hle
    exact (simulate_num_bullets g globals events).2 hle
  · intro events
    obtain ⟨s1, h1, _⟩ := main_loop_body_some initial_state events initial_animation
      alien_sprite rfl rfl
    exact ⟨s1, h1, hbody _ _ _ h1 (by decide)⟩

/-- C10, instance: the initial game with all 128 bullet cells live. -/
theorem bullet_capacity_witness :
    full_game.num_bullets = GAME_MAX_BULLET ∧
      ((process_fire player_sprite true full_game).1 = full_game ∧
      spawned player_sprite true full_game = 0 ∧
      (process_fire player_sprite true full_game).1.num_bullets = 128 ∧
      (∀ (fire : Bool) (g : Game) (i : Nat), GAME_MAX_BULLET ≤ i →
        (process_fire player_sprite fire g).1.bullets i = g.bullets i) ∧
      (∀ (g : Game) (globals : Globals) (events : List KeyEvent),
        g.num_bullets ≤ GAME_MAX_BULLET →
        (simulate g globals events).1.num_bullets ≤ GAME_MAX_BULLET) ∧
      (∀ (s s1 : State) (events : List KeyEvent), main_loop_body s events = some s1 →
        s.game.num_bullets ≤ GAME_MAX_BULLET → s1.game.num_bullets ≤ GAME_MAX_BULLET) ∧
      (∀ events, ∃ s1, main_loop_body initial_state events = some s1 ∧
        s1.game.num_bullets ≤ GAME_MAX_BULLET)) :=
  ⟨rfl, bullet_capacity player_sprite full_game rfl⟩

/-! ## Running the loop -/

theorem animation_ok_sprite (a : SpriteAnimation) (h : animation_ok a) :
    ∃ sprite, current_sprite (some a) = some sprite := by
  obtain ⟨_, _, hD, hf, ht⟩ := h
  have hidx : a.time / a.frame_duration < a.frames.length := by
    rw [hf]
    exact (Nat.div_lt_iff_lt_mul (by omega)).mpr ht
  have hne : a.frame_duration ≠ 0 := by omega
  refine ⟨a.frames[a.time / a.frame_duration], ?_⟩
  simp only [current_sprite, current_frame, hne, if_false]
  exact List.getElem?_eq_getElem hidx

theorem animation_ok_advance (a : SpriteAnimation) (h : animation_ok a) :
    ∃ a1, animation_advance a = some a1 ∧ animation_ok a1 := by
  obtain ⟨hl, hN, hD, hf, ht⟩ := h
  obtain ⟨a1, h1, hl1, hn1, hd1, hf1, ht1⟩ := animation_advance_bound a hl hN hD ht
  refine ⟨a1, h1, hl1.trans hl, by omega, by omega, ?_, ?_⟩
  · rw [hf1, hn1]; exact hf
  · rw [hn1, hd1]; exact ht1

theorem main_loop_body_ok (s : State) (events : List KeyEvent) (a : SpriteAnimation)
    (ha : s.alien_animation = some a) (hok : animation_ok a) :
    ∃ s1 a1, main_loop_body s events = some s1 ∧ s1.alien_animation = some a1 ∧
      animation_ok a1 ∧ s1.game = (simulate s.game s.globals events).1 ∧
      s1.globals = (simulate s.game s.globals events).2.2 := by
  obtain ⟨sprite, hsp⟩ := animation_ok_sprite a hok
  obtain ⟨a1, h1, hok1⟩ := animation_ok_advance a hok
  obtain ⟨s1, hb, hs1, hg, hgl⟩ := main_loop_body_some s events a sprite ha hsp
  exact ⟨s1, a1, hb, hs1.trans h1, hok1, hg, hgl⟩

theorem run_loop_ok (l : List (List KeyEvent)) :
    ∀ (s : State) (a : SpriteAnimation), s.alien_animation = some a → animation_ok a →
      ∃ s1 a1, run_loop s l = some s1 ∧ s1.alien_animation = some a1 ∧ animation_ok a1 ∧
        s1.game = (run_simulate s.game s.globals l).1 ∧
        s1.globals = (run_simulate s.game s.globals l).2 := by
  induction l with
  | nil => intro s a ha hok; exact ⟨s, a, rfl, ha, hok, rfl, rfl⟩
  | cons e t ih =>
    intro s a ha hok
    obtain ⟨s1, a1, hb, ha1, hok1, hg, hgl⟩ := main_loop_body_ok s e a ha hok
    obtain ⟨s2, a2, hr, ha2, hok2, hg2, hgl2⟩ := ih s1 a1 ha1 hok1
    refine ⟨s2, a2, ?_, ha2, hok2, ?_, ?_⟩
    · rw [run_loop, hb]; exact hr
    · rw [hg2, hg, hgl, run_simulate]
    · rw [hgl2, hg, hgl, run_simulate]

theorem initial_animation_ok : animation_ok initial_animation := by
  unfold animation_ok
  decide

theorem simulate_free_step (x : Nat) (hx : x < 210) :
    simulate (player_at x) moving_globals [] = (player_at (x + 2), 2, moving_globals) := by
  have hb : simulate_bullets bullet_sprite (player_at x) = player_at x :=
    simulate_bullets_zero _ _ rfl
  have hp : simulate_player player_sprite 1 (player_at x) = (player_at (x + 2), 2) := by
    unfold simulate_player
    have h0 : to_int (2 * 1) = 2 := by decide
    simp only [h0]
    rw [if_pos (by decide)]
    have h1 : ¬ to_size_t (((player_at x).player.x : Int) + (player_sprite.width : Int) + 2) ≥
        to_size_t (((player_at x).width : Int) - 1) := by
      simp only [player_at, player_sprite, initial_game, to_size_t]
      omega
    have h2 : ¬ to_int (to_int ((player_at x).player.x : Int) + 2) ≤ 0 := by
      simp only [player_at, to_int]
      omega
    rw [if_neg h1, if_neg h2]
    have h3 : to_size_t (((player_at x).player.x : Int) + 2) = x + 2 := by
      simp only [player_at, to_size_t]
      omega
    rw [h3]
    rfl
  unfold simulate
  simp only [hb, moving_globals, initial_globals, hp, process_fire_idle]
  rfl

theorem run_simulate_free (k : Nat) :
    ∀ x : Nat, x + 2 * k ≤ 210 →
      run_simulate (player_at x) moving_globals (List.replicate k []) =
        (player_at (x + 2 * k), moving_globals) := by
  induction k with
  | zero => intro x _; rfl
  | succ k ih =>
    intro x hx
    rw [List.replicate_succ, run_simulate, simulate_free_step x (by omega)]
    simp only
    rw [ih (x + 2) (by omega)]
    congr 2
    omega

theorem simulate_player_free (ps : Sprite) (move_dir : Int) (game : Game)
    (hx : game.player.x < 18446744073709551616)
    (hright : ¬ right_clamp_test ps move_dir game)
    (hleft : ¬ left_clamp_test move_dir game) :
    (simulate_player ps move_dir game).1.player.x =
      to_size_t (game.player.x + to_int (2 * move_dir)) := by
  unfold right_clamp_test at hright
  unfold left_clamp_test at hleft
  unfold simulate_player
  by_cases h0 : to_int (2 * move_dir) = 0
  · rw [if_neg (by simpa using h0), h0]
    simp only [Int.add_zero]
    exact (to_size_t_of_lt _ hx).symm
  · rw [if_pos h0, if_neg hright, if_neg hleft]

/-- C11: when neither clamp test of the player step holds, the step sets
`player.x` to `x + 2 * move_dir` (as `size_t`; the plain sum when
`2 * move_dir` is an `int` and the sum fits); from the initial state with
`move_dir = 1` and no keyboard event, the state after `k <= 5` ticks has
`player.x = 117 + 2 * k` with both clamp tests false, so after 5 ticks
`player.x = 127` and no clamp branch was taken. -/
theorem player_moves_freely (player_sprite1 : Sprite) (move_dir : Int) (game : Game)
    (hx : game.player.x < 18446744073709551616)
    (hright : ¬ right_clamp_test player_sprite1 move_dir game)
    (hleft : ¬ left_clamp_test move_dir game) :
    (simulate_player player_sprite1 move_dir game).1.player.x =
        to_size_t (game.player.x + to_int (2 * move_dir)) ∧
      (-2147483648 ≤ 2 * move_dir → 2 * move_dir < 2147483648 →
        (game.player.x : Int) + 2 * move_dir < 18446744073709551616 →
        ((simulate_player player_sprite1 move_dir game).1.player.x : Int) =
          game.player.x + 2 * move_dir) ∧
      (∀ k, k ≤ 5 → ∃ s, run_loop moving_state (List.replicate k []) = some s ∧
        s.game.player.x = 117 + 2 * k ∧ s.globals.move_dir = 1 ∧
        s.globals.fire_pressed = false ∧
        ¬ right_clamp_test player_sprite s.globals.move_dir s.game ∧
        ¬ left_clamp_test s.globals.move_dir s.game) ∧
      ∃ s, run_loop moving_state (List.replicate 5 []) = some s ∧ s.game.player.x = 127 := by
  have hfree := simulate_player_free player_sprite1 move_dir game hx hright hleft
  have hrun : ∀ k, k ≤ 5 → ∃ s, run_loop moving_state (List.replicate k []) = some s ∧
      s.game = player_at (117 + 2 * k) ∧ s.globals = moving_globals := by
    intro k hk
    obtain ⟨s, _, hr, _, _, hg, hgl⟩ := run_loop_ok (List.replicate k []) moving_state
      initial_animation rfl initial_animation_ok
    have hsim := run_simulate_free k 117 (by omega)
    have hstart : moving_state.game = player_at 117 := rfl
    have hglob : moving_state.globals = moving_globals := rfl
    rw [hstart, hglob, hsim] at hg hgl
    exact ⟨s, hr, hg, hgl⟩
  refine ⟨hfree, ?_, ?_, ?_⟩
  · intro hlo hhi hfit
    rw [hfree]
    unfold left_clamp_test at hleft
    unfold to_size_t
    unfold to_int at hleft ⊢
    omega
  · intro k hk
    obtain ⟨s, hr, hg, hgl⟩ := hrun k hk
    refine ⟨s, hr, ?_, ?_, ?_, ?_, ?_⟩
    · rw [hg]; rfl
    · rw [hgl]; rfl
    · rw [hgl]; rfl
    · rw [hg, hgl]
      simp only [right_clamp_test, player_at, player_sprite, initial_game, moving_globals,
        initial_globals, to_size_t, to_int]
      omega
    · rw [hg, hgl]
      simp only [left_clamp_test, player_at, moving_globals, initial_globals, to_int]
      omega
  · obtain ⟨s, hr, hg, _⟩ := hrun 5 (Nat.le_refl 5)
    exact ⟨s, hr, by rw [hg]; rfl⟩

/-- C11, instance: the initial game with `move_dir = 1`. -/
theorem player_moves_freely_witness :
    (initial_game.player.x < 18446744073709551616 ∧
      ¬ right_clamp_test player_sprite 1 initial_game ∧
      ¬ left_clamp_test 1 initial_game) ∧
    ((simulate_player player_sprite 1 initial_game).1.player.x =
        to_size_t (initial_game.player.x + to_int (2 * 1)) ∧
      (-2147483648 ≤ 2 * (1 : Int) → 2 * (1 : Int) < 2147483648 →
        (initial_game.player.x : Int) + 2 * 1 < 18446744073709551616 →
        ((simulate_player player_sprite 1 initial_game).1.player.x : Int) =
          initial_game.player.x + 2 * 1) ∧
      (∀ k, k ≤ 5 → ∃ s, run_loop moving_state (List.replicate k []) = some s ∧
        s.game.player.x = 117 + 2 * k ∧ s.globals.move_dir = 1 ∧
        s.globals.fire_pressed = false ∧
        ¬ right_clamp_test player_sprite s.globals.move_dir s.game ∧
        ¬ left_clamp_test s.globals.move_dir s.game) ∧
      ∃ s, run_loop moving_state (List.replicate 5 []) = some s ∧ s.game.player.x = 127) :=
  ⟨by unfold right_clamp_test left_clamp_test; decide,
    player_moves_freely player_sprite 1 initial_game (by decide)
      (by unfold right_clamp_test; decide) (by unfold left_clamp_test; decide)⟩

/-! ## Horizontal intent -/

theorem key_callback_move_dir (g : Globals) (key action : Int) :
    (key_callback g key action).move_dir =
      if key = GLFW_KEY_RIGHT then
        if action = GLFW_PRESS then to_int (g.move_dir + 1)
        else if action = GLFW_RELEASE then to_int (g.move_dir - 1)
        else g.move_dir
      else if key = GLFW_KEY_LEFT then
        if action = GLFW_PRESS then to_int (g.move_dir - 1)
        else if action = GLFW_RELEASE then to_int (g.move_dir + 1)
        else g.move_dir
      else g.move_dir := by
  unfold key_callback
  by_cases h1 : key = GLFW_KEY_ESCAPE
  · have h2 : ¬ key = GLFW_KEY_RIGHT := by rw [h1]; decide
    have h3 : ¬ key = GLFW_KEY_LEFT := by rw [h1]; decide
    rw [if_pos h1, if_neg h2, if_neg h3]
    split_ifs <;> rfl
  · rw [if_neg h1]
    split_ifs <;> rfl

theorem key_callback_held (g : Globals) (h h1 : Held) (e : KeyEvent)
    (hg : g.move_dir = held_value h) (hs : held_step h e = some h1) :
    (key_callback g e.key e.action).move_dir = held_value h1 := by
  obtain ⟨hr, hl⟩ := h
  rw [key_callback_move_dir, hg]
  unfold held_step at hs
  cases hr <;> cases hl <;>
    simp only [Bool.false_eq_true, if_true, if_false] at hs ⊢ <;>
    split_ifs at hs ⊢ <;>
    (simp only [Option.some.injEq] at hs
     subst hs
     decide)

theorem poll_events_held (events : List KeyEvent) :
    ∀ (g : Globals) (h h1 : Held), g.move_dir = held_value h →
      held_after h events = some h1 → (poll_events g events).move_dir = held_value h1 := by
  induction events with
  | nil =>
    intro g h h1 hg ha
    simp only [held_after, Option.some.injEq] at ha
    rw [← ha]
    exact hg
  | cons e t ih =>
    intro g h h1 hg ha
    rw [held_after] at ha
    cases hs : held_step h e with
    | none => rw [hs] at ha; exact absurd ha (by simp)
    | some h2 =>
      rw [hs] at ha
      have := ih (key_callback g e.key e.action) h2 h1 (key_callback_held g h h2 e hg hs) ha
      unfold poll_events at this ⊢
      rw [List.foldl_cons]
      exact this

/-- C12: starting from `move_dir = 0` with both arrow keys up, after every
sequence of keyboard events in which the press and release events of RIGHT
alternate and those of LEFT alternate (repeat events and events of other keys
anywhere), `key_callback` leaves `move_dir` equal to (1 if RIGHT is down, else
0) minus (1 if LEFT is down, else 0); so `move_dir` is -1, 0 or 1, and it is 0
when both keys are down. -/
theorem move_dir_tracks_held (events : List KeyEvent) (g : Globals) (h : Held)
    (h0 : g.move_dir = 0)
    (halt : held_after { right := false, left := false } events = some h) :
    (poll_events g events).move_dir =
        (if h.right = true then 1 else 0) - (if h.left = true then 1 else 0) ∧
      ((poll_events g events).move_dir = -1 ∨ (poll_events g events).move_dir = 0 ∨
        (poll_events g events).move_dir = 1) ∧
      (h.right = true → h.left = true → (poll_events g events).move_dir = 0) := by
  have hv := poll_events_held events g { right := false, left := false } h
    (by rw [h0]; rfl) halt
  unfold held_value at hv
  rw [hv]
  obtain ⟨hr, hl⟩ := h
  cases hr <;> cases hl <;> simp

/-- C12, instance: RIGHT pressed, LEFT pressed, SPACE released, RIGHT repeated,
RIGHT released: LEFT alone is down and `move_dir = -1`. -/
theorem move_dir_tracks_held_witness :
    (initial_globals.move_dir = 0 ∧
      held_after { right := false, left := false }
        [{ key := GLFW_KEY_RIGHT, action := GLFW_PRESS },
          { key := GLFW_KEY_LEFT, action := GLFW_PRESS },
          { key := GLFW_KEY_SPACE, action := GLFW_RELEASE },
          { key := GLFW_KEY_RIGHT, action := GLFW_REPEAT },
          { key := GLFW_KEY_RIGHT, action := GLFW_RELEASE }] =
        some { right := false, left := true }) ∧
    (poll_events initial_globals
        [{ key := GLFW_KEY_RIGHT, action := GLFW_PRESS },
          { key := GLFW_KEY_LEFT, action := GLFW_PRESS },
          { key := GLFW_KEY_SPACE, action := GLFW_RELEASE },
          { key := GLFW_KEY_RIGHT, action := GLFW_REPEAT },
          { key := GLFW_KEY_RIGHT, action := GLFW_RELEASE }]).move_dir = -1 :=
  ⟨by decide,
    by
      have h := (move_dir_tracks_held
        [{ key := GLFW_KEY_RIGHT, action := GLFW_PRESS },
          { key := GLFW_KEY_LEFT, action := GLFW_PRESS },
          { key := GLFW_KEY_SPACE, action := GLFW_RELEASE },
          { key := GLFW_KEY_RIGHT, action := GLFW_REPEAT },
          { key := GLFW_KEY_RIGHT, action := GLFW_RELEASE }]
        initial_globals { right := false, left := true } rfl (by decide)).1
      simpa using h⟩

/-! ## Colour packing -/

theorem rgb_to_uint32_sum (r g b : Nat) (hr : r < 256) (hg : g < 256) (hb : b < 256) :
    rgb_to_uint32 r g b = r * 16777216 + g * 65536 + b * 256 + 255 := by
  unfold rgb_to_uint32
  have e1 : r <<< 24 ||| g <<< 16 = r * 16777216 + g * 65536 := by
    have h := Nat.mul_add_lt_is_or (show g * 65536 < 2 ^ 24 by omega) r
    rw [Nat.shiftLeft_eq, Nat.shiftLeft_eq]
    norm_num at h ⊢
    rw [Nat.mul_comm r 16777216, ← h]
  have e2 : (r * 16777216 + g * 65536) ||| b <<< 8 = r * 16777216 + g * 65536 + b * 256 := by
    have h := Nat.mul_add_lt_is_or (show b * 256 < 2 ^ 16 by omega) (r * 256 + g)
    rw [Nat.shiftLeft_eq]
    norm_num at h ⊢
    have e : 65536 * (r * 256 + g) = r * 16777216 + g * 65536 := by ring
    rw [e] at h
    exact h.symm
  have e3 : (r * 16777216 + g * 65536 + b * 256) ||| 255 =
      r * 16777216 + g * 65536 + b * 256 + 255 := by
    have h := Nat.mul_add_lt_is_or (show 255 < 2 ^ 8 by omega) (r * 65536 + g * 256 + b)
    norm_num at h
    have e : 256 * (r * 65536 + g * 256 + b) = r * 16777216 + g * 65536 + b * 256 := by ring
    rw [e] at h
    exact h.symm
  rw [e1, e2, e3]
  omega

/-- C13: for all bytes `r`, `g`, `b`, `rgb_to_uint32 r g b` is
`r * 2^24 + g * 2^16 + b * 2^8 + 255` (also for `r >= 128`); its four bytes
from the most to the least significant are `r`, `g`, `b`, 255; two byte
triples with the same result are equal; and `rgb_to_uint32 0 128 0` is
`0x008000FF`. -/
theorem rgb_to_uint32_packed (r g b : Nat) (hr : r < 256) (hg : g < 256) (hb : b < 256) :
    rgb_to_uint32 r g b = r * 2 ^ 24 + g * 2 ^ 16 + b * 2 ^ 8 + 255 ∧
      rgb_to_uint32 r g b < 2 ^ 32 ∧
      rgb_to_uint32 r g b / 2 ^ 24 % 256 = r ∧
      rgb_to_uint32 r g b / 2 ^ 16 % 256 = g ∧
      rgb_to_uint32 r g b / 2 ^ 8 % 256 = b ∧
      rgb_to_uint32 r g b % 256 = 255 ∧
      (∀ r1 g1 b1 : Nat, r1 < 256 → g1 < 256 → b1 < 256 →
        rgb_to_uint32 r1 g1 b1 = rgb_to_uint32 r g b → r1 = r ∧ g1 = g ∧ b1 = b) ∧
      rgb_to_uint32 0 128 0 = 0x008000FF := by
  have h := rgb_to_uint32_sum r g b hr hg hb
  refine ⟨by rw [h]; norm_num, by rw [h]; norm_num; omega, by rw [h]; norm_num; omega,
    by rw [h]; norm_num; omega, by rw [h]; norm_num; omega, by rw [h]; omega, ?_, by decide⟩
  intro r1 g1 b1 hr1 hg1 hb1 heq
  rw [h, rgb_to_uint32_sum r1 g1 b1 hr1 hg1 hb1] at heq
  omega

/-- C13, instance: the sprite colour `rgb_to_uint32 128 0 0`, whose red byte
has the top bit set. -/
theorem rgb_to_uint32_packed_witness :
    ((128 : Nat) < 256 ∧ (0 : Nat) < 256) ∧
      rgb_to_uint32 128 0 0 = 128 * 2 ^ 24 + 0 * 2 ^ 16 + 0 * 2 ^ 8 + 255 ∧
      rgb_to_uint32 128 0 0 = 0x800000FF :=
  ⟨by decide, (rgb_to_uint32_packed 128 0 0 (by decide) (by decide) (by decide)).1,
    by decide⟩

/-! ## Vertical flip of a stamp -/

theorem foldl_establishes {α β : Type} (Inv Q : α → Prop) (f : α → β → α) (e : β)
    (hinv : ∀ a b, Inv a → Inv (f a b)) (hkeep : ∀ a b, Q a → Q (f a b))
    (hset : ∀ a, Inv a → Q (f a e)) :
    ∀ (l : List β), e ∈ l → ∀ a, Inv a → Q (l.foldl f a) := by
  intro l
  induction l with
  | nil => intro he; exact absurd he (List.not_mem_nil _)
  | cons b t ih =>
    intro he a ha
    rw [List.foldl_cons]
    rcases List.mem_cons.mp he with h | h
    · subst h
      exact foldl_preserves Q f t (fun a1 b1 _ h1 => hkeep a1 b1 h1) _ (hset a ha)
    · exact ih h (f a b) (hinv a b ha)

theorem sprite_draw_cell_size (sprite : Sprite) (x y color xi : Nat) (b : Buffer) (yi : Nat) :
    (sprite_draw_cell sprite x y color xi b yi).width = b.width ∧
      (sprite_draw_cell sprite x y color xi b yi).height = b.height := by
  unfold sprite_draw_cell
  split_ifs <;> exact ⟨rfl, rfl⟩

theorem sprite_draw_cell_keeps (sprite : Sprite) (x y color xi : Nat) (b : Buffer) (yi i : Nat)
    (h : b.data i = color) : (sprite_draw_cell sprite x y color xi b yi).data i = color := by
  unfold sprite_draw_cell
  split_ifs
  · simp only
    by_cases hi : i = to_size_t (to_size_t (sprite.height - 1 + y - yi) * b.width +
        to_size_t (x + xi))
    · rw [hi]
      exact Function.update_same _ _ _
    · rw [Function.update_noteq hi]
      exact h
  · exact h

theorem stamp_coords (bw bh sw sh x y xi yi : Nat)
    (hcells : bw * bh < 18446744073709551616) (hx : x + sw ≤ bw) (hy : y + sh ≤ bh)
    (hxi : xi < sw) (hyi : yi < sh) :
    to_size_t ((x : Int) + (xi : Int)) = x + xi ∧
      to_size_t ((sh : Int) - 1 + (y : Int) - (yi : Int)) = y + (sh - 1 - yi) ∧
      x + xi < bw ∧ y + (sh - 1 - yi) < bh ∧
      to_size_t ((yi : Int) * (sw : Int) + (xi : Int)) = yi * sw + xi ∧
      (y + (sh - 1 - yi)) * bw + (x + xi) < 18446744073709551616 := by
  have hbw : 0 < bw := by omega
  have hbh : bh ≤ bw * bh := Nat.le_mul_of_pos_left bh hbw
  have hbw2 : bw ≤ bw * bh := Nat.le_mul_of_pos_right bw (by omega)
  have hmask : yi * sw + xi < sw * sh := cell_index_lt sw sh xi yi hxi hyi
  have hle : sw * sh ≤ bw * bh := Nat.mul_le_mul (by omega) (by omega)
  have hidx : (y + (sh - 1 - yi)) * bw + (x + xi) < bw * bh :=
    cell_index_lt bw bh (x + xi) (y + (sh - 1 - yi)) (by omega) (by omega)
  have hm := to_size_t_of_lt (yi * sw + xi) (by omega)
  push_cast at hm
  refine ⟨?_, ?_, by omega, by omega, hm, by omega⟩
  · unfold to_size_t; omega
  · unfold to_size_t; omega

theorem sprite_draw_cell_sets (buffer : Buffer) (sprite : Sprite) (x y color xi yi : Nat)
    (hcells : buffer.width * buffer.height < 18446744073709551616)
    (hx : x + sprite.width ≤ buffer.width) (hy : y + sprite.height ≤ buffer.height)
    (hxi : xi < sprite.width) (hyi : yi < sprite.height)
    (hmask : sprite.data (yi * sprite.width + xi) ≠ 0) (b : Buffer)
    (hb : b.width = buffer.width ∧ b.height = buffer.height) :
    (sprite_draw_cell sprite x y color xi b yi).data
      ((y + (sprite.height - 1 - yi)) * buffer.width + (x + xi)) = color := by
  obtain ⟨h1, h2, h3, h4, h5, h6⟩ := stamp_coords buffer.width buffer.height sprite.width
    sprite.height x y xi yi hcells hx hy hxi hyi
  have h7 := to_size_t_of_lt _ h6
  push_cast at h7
  unfold sprite_draw_cell
  rw [h1, h2, h5, hb.1, hb.2, if_pos ⟨hmask, h4, h3⟩]
  simp only
  push_cast
  rw [h7]
  exact Function.update_same _ _ _

theorem buffer_sprite_draw_sets (buffer : Buffer) (sprite : Sprite) (x y color xi yi : Nat)
    (hcells : buffer.width * buffer.height < 18446744073709551616)
    (hx : x + sprite.width ≤ buffer.width) (hy : y + sprite.height ≤ buffer.height)
    (hxi : xi < sprite.width) (hyi : yi < sprite.height)
    (hmask : sprite.data (yi * sprite.width + xi) ≠ 0) :
    (buffer_sprite_draw buffer sprite x y color).data
      ((y + (sprite.height - 1 - yi)) * buffer.width + (x + xi)) = color := by
  unfold buffer_sprite_draw
  have hsize : ∀ (c : Nat) (a : Buffer) (r : Nat),
      (a.width = buffer.width ∧ a.height = buffer.height) →
      ((sprite_draw_cell sprite x y color c a r).width = buffer.width ∧
        (sprite_draw_cell sprite x y color c a r).height = buffer.height) := by
    intro c a r ha
    obtain ⟨h1, h2⟩ := sprite_draw_cell_size sprite x y color c a r
    exact ⟨h1.trans ha.1, h2.trans ha.2⟩
  have hinner : ∀ a : Buffer, (a.width = buffer.width ∧ a.height = buffer.height) →
      (List.foldl (sprite_draw_cell sprite x y color xi) a (List.range sprite.height)).data
        ((y + (sprite.height - 1 - yi)) * buffer.width + (x + xi)) = color := by
    intro a ha
    exact foldl_establishes (fun b => b.width = buffer.width ∧ b.height = buffer.height)
      (fun b => b.data ((y + (sprite.height - 1 - yi)) * buffer.width + (x + xi)) = color)
      (sprite_draw_cell sprite x y color xi) yi
      (fun a1 r h1 => hsize xi a1 r h1)
      (fun a1 r h1 => sprite_draw_cell_keeps sprite x y color xi a1 r _ h1)
      (fun a1 h1 =>
        sprite_draw_cell_sets buffer sprite x y color xi yi hcells hx hy hxi hyi hmask a1 h1)
      (List.range sprite.height) (List.mem_range.mpr hyi) a ha
  exact foldl_establishes (fun b => b.width = buffer.width ∧ b.height = buffer.height)
    (fun b => b.data ((y + (sprite.height - 1 - yi)) * buffer.width + (x + xi)) = color)
    (fun b c => List.foldl (sprite_draw_cell sprite x y color c) b (List.range sprite.height))
    xi
    (fun a c ha => foldl_preserves _ _ _ (fun a1 r _ h1 => hsize c a1 r h1) a ha)
    (fun a c ha => foldl_preserves
      (fun b => b.data ((y + (sprite.height - 1 - yi)) * buffer.width + (x + xi)) = color) _ _
      (fun a1 r _ h1 => sprite_draw_cell_keeps sprite x y color c a1 r _ h1) a ha)
    hinner (List.range sprite.width) (List.mem_range.mpr hxi) buffer ⟨rfl, rfl⟩

theorem buffer_sprite_draw_skips (buffer : Buffer) (sprite : Sprite) (x y color xi yi : Nat)
    (hcells : buffer.width * buffer.height < 18446744073709551616)
    (hx : x + sprite.width ≤ buffer.width) (hy : y + sprite.height ≤ buffer.height)
    (hxi : xi < sprite.width) (hyi : yi < sprite.height)
    (hmask : sprite.data (yi * sprite.width + xi) = 0) :
    (buffer_sprite_draw buffer sprite x y color).data
        ((y + (sprite.height - 1 - yi)) * buffer.width + (x + xi)) =
      buffer.data ((y + (sprite.height - 1 - yi)) * buffer.width + (x + xi)) := by
  obtain ⟨_, _, hd⟩ := buffer_sprite_draw_stamped buffer sprite x y color
  by_contra hne
  obtain ⟨xj, yj, hxj, hyj, hm, hsy, hsx, hidx⟩ := hd _ hne
  obtain ⟨h1, h2, h3, h4, h5, h6⟩ := stamp_coords buffer.width buffer.height sprite.width
    sprite.height x y xj yj hcells hx hy hxj hyj
  have h7 := to_size_t_of_lt _ h6
  push_cast at h7
  rw [h1, h2] at hidx
  push_cast at hidx
  rw [h7] at hidx
  obtain ⟨hc, hr⟩ := cell_index_inj buffer.width (x + xj) (y + (sprite.height - 1 - yj))
    (x + xi) (y + (sprite.height - 1 - yi)) h3 (by omega) hidx
  have hxe : xj = xi := by omega
  have hye : yj = yi := by omega
  rw [h5, hxe, hye] at hm
  exact hm hmask

/-- C14: for a buffer of `width * height` cells (a cell count that `size_t` can
hold), a sprite and a position with `x + sprite.width <= buffer.width` and
`y + sprite.height <= buffer.height`, after `buffer_sprite_draw` the pixel at
column `x + xi`, row `y + (sprite.height - 1 - yi)` is `color` for every nonzero
mask cell `(xi, yi)` and keeps its value for every zero mask cell; sprite row 0
lands on buffer row `y + sprite.height - 1` and the last sprite row on buffer
row `y`. -/
theorem buffer_sprite_draw_flip (buffer : Buffer) (sprite : Sprite) (x y color : Nat)
    (hcells : buffer.width * buffer.height < 18446744073709551616)
    (hx : x + sprite.width ≤ buffer.width) (hy : y + sprite.height ≤ buffer.height) :
    (∀ xi yi, xi < sprite.width → yi < sprite.height →
      (sprite.data (yi * sprite.width + xi) ≠ 0 →
        (buffer_sprite_draw buffer sprite x y color).data
          ((y + (sprite.height - 1 - yi)) * buffer.width + (x + xi)) = color) ∧
      (sprite.data (yi * sprite.width + xi) = 0 →
        (buffer_sprite_draw buffer sprite x y color).data
            ((y + (sprite.height - 1 - yi)) * buffer.width + (x + xi)) =
          buffer.data ((y + (sprite.height - 1 - yi)) * buffer.width + (x + xi)))) ∧
      (∀ xi, xi < sprite.width → 0 < sprite.height →
        (sprite.data (0 * sprite.width + xi) ≠ 0 →
          (buffer_sprite_draw buffer sprite x y color).data
            ((y + sprite.height - 1) * buffer.width + (x + xi)) = color) ∧
        (sprite.data ((sprite.height - 1) * sprite.width + xi) ≠ 0 →
          (buffer_sprite_draw buffer sprite x y color).data
            (y * buffer.width + (x + xi)) = color)) := by
  constructor
  · intro xi yi hxi hyi
    exact ⟨buffer_sprite_draw_sets buffer sprite x y color xi yi hcells hx hy hxi hyi,
      buffer_sprite_draw_skips buffer sprite x y color xi yi hcells hx hy hxi hyi⟩
  · intro xi hxi hpos
    constructor
    · intro hm
      have h := buffer_sprite_draw_sets buffer sprite x y color xi 0 hcells hx hy hxi hpos hm
      have e : y + (sprite.height - 1 - 0) = y + sprite.height - 1 := by omega
      rw [e] at h
      exact h
    · intro hm
      have h := buffer_sprite_draw_sets buffer sprite x y color xi (sprite.height - 1) hcells
        hx hy hxi (by omega) hm
      have e : y + (sprite.height - 1 - (sprite.height - 1)) = y := by omega
      rw [e] at h
      exact h

/-- C14, instance: the player sprite stamped at (1, 2) of a 16 x 16 buffer of
zeros: the tip of the ship, mask cell (5, 0), lands on row 8. -/
theorem buffer_sprite_draw_flip_witness :
    (medium_buffer.width * medium_buffer.height < 18446744073709551616 ∧
      1 + player_sprite.width ≤ medium_buffer.width ∧
      2 + player_sprite.height ≤ medium_buffer.height ∧
      player_sprite.data (0 * player_sprite.width + 5) ≠ 0) ∧
    (buffer_sprite_draw medium_buffer player_sprite 1 2 9).data
      ((2 + (player_sprite.height - 1 - 0)) * medium_buffer.width + (1 + 5)) = 9 :=
  ⟨by decide,
    ((buffer_sprite_draw_flip medium_buffer player_sprite 1 2 9 (by decide) (by decide)
      (by decide)).1 5 0 (by decide) (by decide)).1 (by decide)⟩

/-! ## The buffer a tick renders -/

theorem draw_aliens_eq (game : Game) (p : Option SpriteAnimation) (sprite : Sprite)
    (h : current_sprite p = some sprite) (buffer : Buffer) :
    draw_aliens buffer game p =
      some ((List.range game.num_aliens).foldl
        (fun b ai =>
          buffer_sprite_draw b sprite (game.aliens ai).x (game.aliens ai).y
            (rgb_to_uint32 128 0 0))
        buffer) := by
  unfold draw_aliens
  rw [h]
  generalize List.range game.num_aliens = l
  induction l generalizing buffer with
  | nil => rfl
  | cons ai t ih =>
    rw [List.foldlM_cons, List.foldl_cons]
    exact ih _

theorem main_loop_body_buffer (s : State) (g : Globals) (events : List KeyEvent) :
    (main_loop_body { s with globals := g } events).map State.buffer =
      match update_animation s.alien_animation with
      | none => none
      | some _ => render s.buffer s.game s.alien_animation := by
  unfold main_loop_body
  simp only
  cases render s.buffer s.game s.alien_animation with
  | none =>
    cases update_animation s.alien_animation <;> rfl
  | some b =>
    cases update_animation s.alien_animation <;> rfl

/-- C15: the buffer a tick renders is the same for any two values of that
tick's inputs (the globals `move_dir`, `fire_pressed`, `game_running` and the
polled events), whatever the pre-tick state; with an animation the render
phase can query it is the clear colour overlaid with the stamps of the pre-tick
aliens at the pre-tick animation frame, of the pre-tick live bullets and of the
player at the pre-tick position, while the game the tick leaves behind is the
simulated one. -/
theorem render_ignores_inputs (s : State) (a : SpriteAnimation) (g1 g2 : Globals)
    (e1 e2 : List KeyEvent) (ha : s.alien_animation = some a) (hok : animation_ok a) :
    (∀ (t : State) (i1 i2 : Globals) (p1 p2 : List KeyEvent),
      (main_loop_body { t with globals := i1 } p1).map State.buffer =
        (main_loop_body { t with globals := i2 } p2).map State.buffer) ∧
      ∃ sprite s1 s2, a.frames[a.time / a.frame_duration]? = some sprite ∧
        main_loop_body { s with globals := g1 } e1 = some s1 ∧
        main_loop_body { s with globals := g2 } e2 = some s2 ∧
        s1.buffer = s2.buffer ∧
        s1.buffer =
          buffer_sprite_draw
            (draw_bullets
              ((List.range s.game.num_aliens).foldl
                (fun b ai =>
                  buffer_sprite_draw b sprite (s.game.aliens ai).x (s.game.aliens ai).y
                    (rgb_to_uint32 128 0 0))
                (buffer_clear s.buffer clear_color))
              s.game)
            player_sprite s.game.player.x s.game.player.y (rgb_to_uint32 128 0 0) ∧
        s1.game = (simulate s.game g1 e1).1 ∧ s2.game = (simulate s.game g2 e2).1 := by
  constructor
  · intro t i1 i2 p1 p2
    rw [main_loop_body_buffer, main_loop_body_buffer]
  · obtain ⟨sprite, hsp⟩ := animation_ok_sprite a hok
    obtain ⟨a1, h1, _⟩ := animation_ok_advance a hok
    have hD : a.frame_duration ≠ 0 := by
      obtain ⟨_, _, hD, _, _⟩ := hok
      omega
    have hframe : a.frames[a.time / a.frame_duration]? = some sprite := by
      simpa [current_sprite, current_frame, hD] using hsp
    have hrender : ∃ b, render s.buffer s.game s.alien_animation = some b ∧
        b = buffer_sprite_draw
            (draw_bullets
              ((List.range s.game.num_aliens).foldl
                (fun b ai =>
                  buffer_sprite_draw b sprite (s.game.aliens ai).x (s.game.aliens ai).y
                    (rgb_to_uint32 128 0 0))
                (buffer_clear s.buffer clear_color))
              s.game)
            player_sprite s.game.player.x s.game.player.y (rgb_to_uint32 128 0 0) := by
      refine ⟨_, ?_, Eq.refl _⟩
      unfold render
      rw [ha, draw_aliens_eq s.game (some a) sprite hsp]
    obtain ⟨b, hb, hbe⟩ := hrender
    have hbody : ∀ (g : Globals) (e : List KeyEvent),
        ∃ s1, main_loop_body { s with globals := g } e = some s1 ∧ s1.buffer = b ∧
          s1.game = (simulate s.game g e).1 := by
      intro g e
      refine ⟨{ buffer := b, game := (simulate s.game g e).1, alien_animation := some a1,
                player_mov_dir := (simulate s.game g e).2.1,
                globals := (simulate s.game g e).2.2 }, ?_, Eq.refl b, Eq.refl _⟩
      unfold main_loop_body
      simp only
      rw [hb, ha, update_animation, h1]
    obtain ⟨s1, hs1, hb1, hg1⟩ := hbody g1 e1
    obtain ⟨s2, hs2, hb2, hg2⟩ := hbody g2 e2
    exact ⟨sprite, s1, s2, hframe, hs1, hs2, hb1.trans hb2.symm, hb1.trans hbe, hg1, hg2⟩

/-- C15, instance: the initial state, once idle and once with RIGHT held, the
fire flag set and a SPACE release polled. -/
theorem render_ignores_inputs_witness :
    (initial_state.alien_animation = some initial_animation ∧ animation_ok initial_animation) ∧
    ∃ s1 s2,
      main_loop_body { initial_state with globals := initial_globals } [] = some s1 ∧
      main_loop_body
        { initial_state with
          globals := { game_running := true, move_dir := 1, fire_pressed := true } }
        [{ key := GLFW_KEY_SPACE, action := GLFW_RELEASE }] = some s2 ∧
      s1.buffer = s2.buffer :=
  ⟨⟨rfl, initial_animation_ok⟩, by
    obtain ⟨_, s1, s2, _, h1, h2, hb, _⟩ :=
      (render_ignores_inputs initial_state initial_animation initial_globals
        { game_running := true, move_dir := 1, fire_pressed := true } []
        [{ key := GLFW_KEY_SPACE, action := GLFW_RELEASE }] rfl initial_animation_ok).2
    exact ⟨s1, s2, h1, h2, hb⟩⟩

/-! ## What a tick leaves alone -/

theorem simulate_frame (game : Game) (globals : Globals) (events : List KeyEvent) :
    (simulate game globals events).1.num_aliens = game.num_aliens ∧
      (simulate game globals events).1.aliens = game.aliens ∧
      (simulate game globals events).1.player.y = game.player.y ∧
      (simulate game globals events).1.player.life = game.player.life ∧
      (simulate game globals events).1.width = game.width ∧
      (simulate game globals events).1.height = game.height ∧
      (simulate game globals events).2.2 =
        poll_events { globals with fire_pressed := false } events := by
  obtain ⟨f1, f2, f3, f4, f5⟩ := process_fire_frame player_sprite globals.fire_pressed
    (simulate_player player_sprite globals.move_dir (simulate_bullets bullet_sprite game)).1
  obtain ⟨p1, p2, p3, p4, _, _, p7, p8⟩ := simulate_player_frame player_sprite globals.move_dir
    (simulate_bullets bullet_sprite game)
  obtain ⟨b1, b2, b3, b4, b5, _⟩ := simulate_bullets_frame bullet_sprite game
  have hs : (simulate game globals events).1 =
      (process_fire player_sprite globals.fire_pressed
        (simulate_player player_sprite globals.move_dir
          (simulate_bullets bullet_sprite game)).1).1 := rfl
  rw [hs]
  refine ⟨by rw [f3, p3, b3], by rw [f4, p4, b4], by rw [f5, p7, b5], by rw [f5, p8, b5],
    by rw [f1, p1, b1], by rw [f2, p2, b2], ?_⟩
  unfold simulate
  simp only [process_fire_flag]

theorem buffer_sprite_draw_size (buffer : Buffer) (sprite : Sprite) (x y color : Nat) :
    (buffer_sprite_draw buffer sprite x y color).width = buffer.width ∧
      (buffer_sprite_draw buffer sprite x y color).height = buffer.height := by
  obtain ⟨hw, hh, _⟩ := buffer_sprite_draw_stamped buffer sprite x y color
  exact ⟨hw, hh⟩

theorem draw_bullets_size (buffer : Buffer) (game : Game) :
    (draw_bullets buffer game).width = buffer.width ∧
      (draw_bullets buffer game).height = buffer.height := by
  unfold draw_bullets
  exact foldl_preserves (fun b : Buffer => b.width = buffer.width ∧ b.height = buffer.height)
    _ _
    (fun b bi _ hb =>
      ⟨(buffer_sprite_draw_size b bullet_sprite (game.bullets bi).x (game.bullets bi).y
          (rgb_to_uint32 128 0 0)).1.trans hb.1,
        (buffer_sprite_draw_size b bullet_sprite (game.bullets bi).x (game.bullets bi).y
          (rgb_to_uint32 128 0 0)).2.trans hb.2⟩)
    buffer ⟨rfl, rfl⟩

theorem draw_aliens_size (game : Game) (p : Option SpriteAnimation) (buffer b1 : Buffer)
    (h : draw_aliens buffer game p = some b1) :
    b1.width = buffer.width ∧ b1.height = buffer.height := by
  cases hsp : current_sprite p with
  | none =>
    unfold draw_aliens at h
    rw [hsp] at h
    cases hl : List.range game.num_aliens with
    | nil =>
      rw [hl] at h
      simp only [List.foldlM_nil] at h
      cases h
      exact ⟨rfl, rfl⟩
    | cons ai t =>
      rw [hl, List.foldlM_cons] at h
      exact absurd h (by simp)
  | some sprite =>
    rw [draw_aliens_eq game p sprite hsp] at h
    simp only [Option.some.injEq] at h
    rw [← h]
    exact foldl_preserves (fun b : Buffer => b.width = buffer.width ∧ b.height = buffer.height)
      _ _
      (fun b ai _ hb =>
        ⟨(buffer_sprite_draw_size b sprite (game.aliens ai).x (game.aliens ai).y
            (rgb_to_uint32 128 0 0)).1.trans hb.1,
          (buffer_sprite_draw_size b sprite (game.aliens ai).x (game.aliens ai).y
            (rgb_to_uint32 128 0 0)).2.trans hb.2⟩)
      buffer ⟨rfl, rfl⟩

theorem render_size (buffer b1 : Buffer) (game : Game) (p : Option SpriteAnimation)
    (h : render buffer game p = some b1) :
    b1.width = buffer.width ∧ b1.height = buffer.height := by
  unfold render at h
  cases ha : draw_aliens (buffer_clear buffer clear_color) game p with
  | none => rw [ha] at h; exact absurd h (by simp)
  | some b =>
    rw [ha] at h
    simp only [Option.some.injEq] at h
    obtain ⟨h1, h2⟩ := draw_aliens_size game p _ b ha
    obtain ⟨h3, h4⟩ := draw_bullets_size b game
    obtain ⟨h5, h6⟩ := buffer_sprite_draw_size (draw_bullets b game) player_sprite
      game.player.x game.player.y (rgb_to_uint32 128 0 0)
    rw [← h]
    exact ⟨h5.trans (h3.trans h1), h6.trans (h4.trans h2)⟩

theorem main_loop_body_parts (s s1 : State) (events : List KeyEvent)
    (h : main_loop_body s events = some s1) :
    render s.buffer s.game s.alien_animation = some s1.buffer ∧
      update_animation s.alien_animation = some s1.alien_animation := by
  unfold main_loop_body at h
  split at h
  · exact absurd h (by simp)
  · rename_i b hb
    split at h
    · exact absurd h (by simp)
    · rename_i p hp
      simp only [Option.some.injEq] at h
      subst h
      exact ⟨hb, hp⟩

theorem animation_advance_fields (a a1 : SpriteAnimation) (h : animation_advance a = some a1) :
    a1.loop = a.loop ∧ a1.num_frames = a.num_frames ∧
      a1.frame_duration = a.frame_duration ∧ a1.frames = a.frames := by
  unfold animation_advance at h
  split_ifs at h
  · simp only [Option.some.injEq] at h
    subst h
    exact ⟨rfl, rfl, rfl, rfl⟩
  · simp only [Option.some.injEq] at h
    subst h
    exact ⟨rfl, rfl, rfl, rfl⟩

/-- C16: one complete iteration of the loop leaves `num_aliens`, every alien
(the whole array, so each `x`, `y`, `type`), `player.y`, `player.life`,
`game.width` and `game.height` as they were, for every state and every input;
so does the simulation alone.  Of the rest, the buffer keeps its size, an
animation that is still allocated keeps `loop`, `num_frames`, `frame_duration`
and `frames`, and the globals are the old ones with the fire flag cleared,
passed through the `key_callback` calls of the poll. -/
theorem tick_frame (s s1 : State) (events : List KeyEvent)
    (h : main_loop_body s events = some s1) :
    s1.game.num_aliens = s.game.num_aliens ∧
      s1.game.aliens = s.game.aliens ∧
      (∀ i, (s1.game.aliens i).x = (s.game.aliens i).x ∧
        (s1.game.aliens i).y = (s.game.aliens i).y ∧
        (s1.game.aliens i).type = (s.game.aliens i).type) ∧
      s1.game.player.y = s.game.player.y ∧
      s1.game.player.life = s.game.player.life ∧
      s1.game.width = s.game.width ∧
      s1.game.height = s.game.height ∧
      s1.buffer.width = s.buffer.width ∧
      s1.buffer.height = s.buffer.height ∧
      s1.globals = poll_events { s.globals with fire_pressed := false } events ∧
      (∀ a1, s1.alien_animation = some a1 → ∃ a, s.alien_animation = some a ∧
        a1.loop = a.loop ∧ a1.num_frames = a.num_frames ∧
        a1.frame_duration = a.frame_duration ∧ a1.frames = a.frames) ∧
      (∀ (game : Game) (globals : Globals) (polled : List KeyEvent),
        (simulate game globals polled).1.num_aliens = game.num_aliens ∧
        (simulate game globals polled).1.aliens = game.aliens ∧
        (simulate game globals polled).1.player.y = game.player.y ∧
        (simulate game globals polled).1.player.life = game.player.life ∧
        (simulate game globals polled).1.width = game.width ∧
        (simulate game globals polled).1.height = game.height) := by
  obtain ⟨hg, _, hgl⟩ := main_loop_body_game s s1 events h
  obtain ⟨hr, hu⟩ := main_loop_body_parts s s1 events h
  obtain ⟨f1, f2, f3, f4, f5, f6, f7⟩ := simulate_frame s.game s.globals events
  obtain ⟨hbw, hbh⟩ := render_size s.buffer s1.buffer s.game s.alien_animation hr
  refine ⟨by rw [hg, f1], by rw [hg, f2], ?_, by rw [hg, f3], by rw [hg, f4], by rw [hg, f5],
    by rw [hg, f6], hbw, hbh, by rw [hgl, f7], ?_, ?_⟩
  · intro i
    rw [hg, f2]
    exact ⟨rfl, rfl, rfl⟩
  · intro a1 ha1
    cases ha : s.alien_animation with
    | none =>
      rw [ha] at hu
      exact absurd hu (by simp [update_animation])
    | some a =>
      rw [ha] at hu
      simp only [update_animation, Option.some.injEq] at hu
      rw [ha1] at hu
      exact ⟨a, rfl, animation_advance_fields a a1 hu⟩
  · intro game globals polled
    obtain ⟨g1, g2, g3, g4, g5, g6, _⟩ := simulate_frame game globals polled
    exact ⟨g1, g2, g3, g4, g5, g6⟩

/-- C16, instance: an iteration from the initial state with RIGHT pressed in
the poll. -/
theorem tick_frame_witness :
    ∃ s1, main_loop_body initial_state [{ key := GLFW_KEY_RIGHT, action := GLFW_PRESS }] =
        some s1 ∧
      s1.game.num_aliens = 55 ∧ s1.game.aliens = initial_game.aliens ∧
      s1.game.player.y = 32 ∧ s1.game.player.life = 3 ∧
      s1.game.width = 224 ∧ s1.game.height = 256 := by
  obtain ⟨s1, _, h1, _⟩ := main_loop_body_ok initial_state
    [{ key := GLFW_KEY_RIGHT, action := GLFW_PRESS }] initial_animation rfl initial_animation_ok
  obtain ⟨t1, t2, _, t4, t5, t6, t7, _⟩ := tick_frame initial_state s1 _ h1
  exact ⟨s1, h1, t1, t2, t4, t5, t6, t7⟩

/-! ## Bullets in play -/

theorem length_le_of_nodup_lt (n : Nat) (l : List Nat) (hnd : l.Nodup)
    (hlt : ∀ y ∈ l, y < n) : l.length ≤ n := by
  have hsub : l.toFinset ⊆ Finset.range n := by
    intro y hy
    exact Finset.mem_range.mpr (hlt y (List.mem_toFinset.mp hy))
  have hcard := Finset.card_le_card hsub
  rw [List.toFinset_card_of_nodup hnd, Finset.card_range] at hcard
  exact hcard

theorem bullets_in_count (lo : Nat) (game : Game) (hlo : lo % 2 = 1) (h : bullets_in lo game) :
    game.num_bullets ≤ (255 - lo) / 2 + 1 := by
  obtain ⟨hnd, hall⟩ := h
  have hlen : ((live_bullets game).map Bullet.y).length = game.num_bullets := by
    rw [List.length_map, live_bullets_length]
  have hmem : ∀ y ∈ (live_bullets game).map Bullet.y, lo ≤ y ∧ y ≤ 255 ∧ y % 2 = 1 := by
    intro y hy
    obtain ⟨b, hb, rfl⟩ := List.mem_map.mp hy
    exact (hall b hb).2
  have hnd2 : (((live_bullets game).map Bullet.y).map (fun y => (y - lo) / 2)).Nodup := by
    apply List.Nodup.map_on _ hnd
    intro y1 h1 y2 h2 heq
    have := hmem y1 h1
    have := hmem y2 h2
    simp only at heq
    omega
  have := length_le_of_nodup_lt ((255 - lo) / 2 + 1) _ hnd2 (by
    intro z hz
    obtain ⟨y, hy, rfl⟩ := List.mem_map.mp hz
    have := hmem y hy
    omega)
  rw [List.length_map, hlen] at this
  exact this

theorem bullets_in_advance (game : Game) (hh : game.height = 256) (h : bullets_in 39 game) :
    bullets_in 41 (simulate_bullets bullet_sprite game) := by
  obtain ⟨hnd, hall⟩ := h
  have hperm := simulate_bullets_perm bullet_sprite game
  have hadv : ∀ b ∈ live_bullets game,
      (bullet_advance b).y = b.y + 2 ∧ (bullet_advance b).dir = 2 := by
    intro b hb
    obtain ⟨hd, h1, h2, _⟩ := hall b hb
    unfold bullet_advance
    simp only [hd]
    exact ⟨by unfold to_size_t; omega, trivial⟩
  constructor
  · rw [(hperm.map Bullet.y).nodup_iff]
    have hsub : (List.filter (fun b => !bullet_out bullet_sprite game b)
        ((live_bullets game).map bullet_advance)).Sublist
          ((live_bullets game).map bullet_advance) := List.filter_sublist _
    apply List.Nodup.sublist (hsub.map Bullet.y)
    have hmap : ((live_bullets game).map bullet_advance).map Bullet.y =
        ((live_bullets game).map Bullet.y).map (fun y => y + 2) := by
      rw [List.map_map, List.map_map]
      apply List.map_congr_left
      intro b hb
      exact (hadv b hb).1
    rw [hmap]
    exact List.Nodup.map (fun a b hab => Nat.add_right_cancel hab) hnd
  · intro b hb
    have hb2 := hperm.mem_iff.mp hb
    obtain ⟨hb3, hout⟩ := List.mem_filter.mp hb2
    obtain ⟨b0, hb0, rfl⟩ := List.mem_map.mp hb3
    obtain ⟨hd, h1, h2, h3⟩ := hall b0 hb0
    obtain ⟨hy, hdir⟩ := hadv b0 hb0
    simp only [bullet_out, hh, Bool.not_eq_true', decide_eq_false_iff_not] at hout
    refine ⟨hdir, ?_, ?_, ?_⟩ <;> omega

theorem live_bullets_congr (g1 g2 : Game) (hb : g1.bullets = g2.bullets)
    (hn : g1.num_bullets = g2.num_bullets) : live_bullets g1 = live_bullets g2 := by
  unfold live_bullets
  rw [hb, hn]

theorem bullets_in_before_fire (game : Game) (globals : Globals) (hh : game.height = 256)
    (h : bullets_in 39 game) : bullets_in 41 (before_fire game globals) := by
  have hadv := bullets_in_advance game hh h
  obtain ⟨_, _, _, _, hn, hb, _, _⟩ := simulate_player_frame player_sprite globals.move_dir
    (simulate_bullets bullet_sprite game)
  have hl : live_bullets (before_fire game globals) =
      live_bullets (simulate_bullets bullet_sprite game) :=
    live_bullets_congr _ _ hb hn
  unfold bullets_in
  rw [hl]
  exact hadv

theorem live_bullets_spawn (game : Game) (b : Bullet) :
    live_bullets
        { game with
          bullets := Function.update game.bullets game.num_bullets b
          num_bullets := game.num_bullets + 1 } =
      live_bullets game ++ [b] := by
  unfold live_bullets
  simp only
  rw [List.range_succ, List.map_append, map_update_range]
  simp

theorem bullets_in_fire (ps : Sprite) (fire : Bool) (game : Game)
    (hy : game.player.y = 32) (hps : ps.height = 7) (h : bullets_in 41 game) :
    bullets_in 39 (process_fire ps fire game).1 := by
  obtain ⟨hnd, hall⟩ := h
  by_cases hc : fire = true ∧ game.num_bullets < GAME_MAX_BULLET
  · obtain ⟨hf, hn⟩ := hc
    subst hf
    rw [process_fire_set ps game hn]
    have hynew : to_size_t ((game.player.y : Int) + (ps.height : Int)) = 39 := by
      rw [hy, hps]
      decide
    unfold bullets_in
    simp only
    rw [live_bullets_spawn, hynew]
    constructor
    · rw [List.map_append, List.map_cons, List.map_nil]
      apply List.Nodup.append hnd (List.nodup_singleton _)
      intro y hy1 hy2
      obtain ⟨b, hb, rfl⟩ := List.mem_map.mp hy1
      have := (hall b hb).2.1
      have h39 : b.y = 39 := List.mem_singleton.mp hy2
      omega
    · intro b hb
      rcases List.mem_append.mp hb with hb1 | hb1
      · obtain ⟨h1, h2, h3, h4⟩ := hall b hb1
        exact ⟨h1, by omega, h3, h4⟩
      · rw [List.mem_singleton.mp hb1]
        exact ⟨rfl, Nat.le_refl 39, by simp only; omega, by simp only⟩
  · have hsame : process_fire ps fire game = (game, false) := by
      unfold process_fire
      rw [if_neg hc]
    rw [hsame]
    refine ⟨hnd, ?_⟩
    intro b hb
    obtain ⟨h1, h2, h3, h4⟩ := hall b hb
    exact ⟨h1, by omega, h3, h4⟩

theorem game_inv_simulate (game : Game) (globals : Globals) (events : List KeyEvent)
    (h : game_inv game) : game_inv (simulate game globals events).1 := by
  obtain ⟨hw, hh, hy, hb⟩ := h
  obtain ⟨_, _, f3, _, f5, f6, _⟩ := simulate_frame game globals events
  have hbf := bullets_in_before_fire game globals hh hb
  have hyb : (before_fire game globals).player.y = 32 := by
    unfold before_fire
    rw [(simulate_player_frame _ _ _).2.2.2.2.2.2.1, (simulate_bullets_frame _ _).2.2.2.2.1]
    exact hy
  have hs : (simulate game globals events).1 =
      (process_fire player_sprite globals.fire_pressed (before_fire game globals)).1 := rfl
  refine ⟨f5.trans hw, f6.trans hh, f3.trans hy, ?_⟩
  rw [hs]
  exact bullets_in_fire player_sprite globals.fire_pressed _ hyb rfl hbf

theorem initial_game_inv : game_inv initial_game := by
  refine ⟨rfl, rfl, rfl, ?_, ?_⟩
  · exact List.nodup_nil
  · intro b hb
    exact absurd hb (List.not_mem_nil _)

theorem reachable_inv (s : State) (h : reachable s) :
    game_inv s.game ∧ s.buffer.width = 224 ∧ s.buffer.height = 256 ∧
      ∃ a, s.alien_animation = some a ∧ animation_ok a := by
  induction h with
  | start => exact ⟨initial_game_inv, rfl, rfl, initial_animation, rfl, initial_animation_ok⟩
  | tick s s1 events _ hb ih =>
    obtain ⟨hg, hbw, hbh, a, ha, hok⟩ := ih
    obtain ⟨s2, a1, hb2, ha1, hok1, hg1, _⟩ := main_loop_body_ok s events a ha hok
    rw [hb] at hb2
    simp only [Option.some.injEq] at hb2
    subst hb2
    obtain ⟨hr, _⟩ := main_loop_body_parts s s1 events hb
    obtain ⟨hw1, hh1⟩ := render_size s.buffer s1.buffer s.game s.alien_animation hr
    refine ⟨?_, hw1.trans hbw, hh1.trans hbh, a1, ha1, hok1⟩
    rw [hg1]
    exact game_inv_simulate s.game s.globals events hg

theorem live_bullets_mem (game : Game) (i : Nat) (hi : i < game.num_bullets) :
    game.bullets i ∈ live_bullets game := by
  unfold live_bullets
  exact List.mem_map.mpr ⟨i, List.mem_range.mpr hi, rfl⟩

theorem bullets_in_distinct (lo : Nat) (game : Game) (h : bullets_in lo game) (i j : Nat)
    (hi : i < game.num_bullets) (hj : j < game.num_bullets)
    (heq : (game.bullets i).y = (game.bullets j).y) : i = j := by
  obtain ⟨hnd, _⟩ := h
  have hlen : ((live_bullets game).map Bullet.y).length = game.num_bullets := by
    rw [List.length_map, live_bullets_length]
  have hget : ∀ (k : Nat) (hk : k < ((live_bullets game).map Bullet.y).length),
      ((live_bullets game).map Bullet.y)[k] = (game.bullets k).y := by
    intro k hk
    simp [live_bullets]
  have hi2 : i < ((live_bullets game).map Bullet.y).length := by rw [hlen]; exact hi
  have hj2 : j < ((live_bullets game).map Bullet.y).length := by rw [hlen]; exact hj
  apply (@List.Nodup.getElem_inj_iff _ _ hnd i hi2 j hj2).mp
  rw [hget i hi2, hget j hj2]
  exact heq

theorem tick_spawned_fire (game : Game) (globals : Globals)
    (hfire : globals.fire_pressed = true)
    (hroom : (before_fire game globals).num_bullets < GAME_MAX_BULLET) :
    tick_spawned game globals = 1 := by
  unfold tick_spawned spawned
  rw [hfire, process_fire_set player_sprite _ hroom]
  simp only
  omega

/-- C17: in every state reachable from the initial state by completed
iterations with arbitrary polled events, the live bullets have pairwise
distinct odd `y` values in `[39, 255]`, so `num_bullets <= 109 < 128`; when the
fire handling of the next iteration runs, the live count is below 128 whatever
the inputs, so a set fire flag always creates a bullet.  Every reachable state
has a next iteration. -/
theorem capacity_unreachable (s : State) (h : reachable s) :
    (∀ i j, i < s.game.num_bullets → j < s.game.num_bullets →
        (s.game.bullets i).y = (s.game.bullets j).y → i = j) ∧
      (∀ i, i < s.game.num_bullets →
        (s.game.bullets i).y % 2 = 1 ∧ 39 ≤ (s.game.bullets i).y ∧
          (s.game.bullets i).y ≤ 255) ∧
      s.game.num_bullets ≤ 109 ∧ 109 < GAME_MAX_BULLET ∧
      (∀ globals : Globals, (before_fire s.game globals).num_bullets < GAME_MAX_BULLET) ∧
      (∀ globals : Globals, globals.fire_pressed = true → tick_spawned s.game globals = 1) ∧
      (∀ events, ∃ s1, main_loop_body s events = some s1 ∧ reachable s1) := by
  obtain ⟨⟨_, hh, _, hb⟩, _, _, a, ha, hok⟩ := reachable_inv s h
  have hroom : ∀ globals : Globals,
      (before_fire s.game globals).num_bullets < GAME_MAX_BULLET := by
    intro globals
    have h41 := bullets_in_before_fire s.game globals hh hb
    have hc := bullets_in_count 41 _ (by decide) h41
    have hcap : GAME_MAX_BULLET = 128 := rfl
    omega
  refine ⟨?_, ?_, ?_, by decide, hroom, ?_, ?_⟩
  · intro i j hi hj heq
    exact bullets_in_distinct 39 s.game hb i j hi hj heq
  · intro i hi
    obtain ⟨_, h1, h2, h3⟩ := hb.2 _ (live_bullets_mem s.game i hi)
    exact ⟨h3, h1, h2⟩
  · have hc := bullets_in_count 39 s.game (by decide) hb
    omega
  · intro globals hfire
    exact tick_spawned_fire s.game globals hfire (hroom globals)
  · intro events
    obtain ⟨s1, _, hb1, _⟩ := main_loop_body_ok s events a ha hok
    exact ⟨s1, hb1, reachable.tick s s1 events h hb1⟩

theorem simulate_initial (globals : Globals) (events : List KeyEvent)
    (hm : globals.move_dir = 0) :
    (simulate initial_game globals events).1 =
      (process_fire player_sprite globals.fire_pressed initial_game).1 := by
  have hb : simulate_bullets bullet_sprite initial_game = initial_game :=
    simulate_bullets_zero _ _ rfl
  have hp : (simulate_player player_sprite 0 initial_game).1 = initial_game := by
    unfold simulate_player
    rw [if_neg (by decide)]
  unfold simulate
  simp only [hb, hm, hp]

theorem reachable_one_bullet :
    ∃ s, reachable s ∧ s.game = (process_fire player_sprite true initial_game).1 := by
  obtain ⟨s1, _, hb1, _, _, hg1, hgl1⟩ := main_loop_body_ok initial_state
    [{ key := GLFW_KEY_SPACE, action := GLFW_RELEASE }] initial_animation rfl
    initial_animation_ok
  have hr1 : reachable s1 := reachable.tick _ _ _ reachable.start hb1
  obtain ⟨_, _, _, a1, ha1, hok1⟩ := reachable_inv s1 hr1
  obtain ⟨s2, _, hb2, _, _, hg2, _⟩ := main_loop_body_ok s1 [] a1 ha1 hok1
  refine ⟨s2, reachable.tick _ _ _ hr1 hb2, ?_⟩
  have hgame1 : s1.game = initial_game := by
    rw [hg1]
    exact simulate_initial initial_globals _ rfl
  have hglob1 : s1.globals = { initial_globals with fire_pressed := true } := by
    rw [hgl1, (simulate_frame _ _ _).2.2.2.2.2.2]
    decide
  rw [hg2, hgame1, hglob1]
  exact simulate_initial _ [] rfl

/-- C17, instance: the state two iterations after the start, a SPACE release
polled in the first: one live bullet. -/
theorem capacity_unreachable_witness :
    ∃ s, reachable s ∧ s.game.num_bullets = 1 ∧ (s.game.bullets 0).y = 39 ∧
      s.game.num_bullets ≤ 109 ∧
      (∀ globals : Globals, (before_fire s.game globals).num_bullets < GAME_MAX_BULLET) := by
  obtain ⟨s, hr, hg⟩ := reachable_one_bullet
  obtain ⟨_, _, h3, _, h5, _⟩ := capacity_unreachable s hr
  refine ⟨s, hr, ?_, ?_, h3, h5⟩
  · rw [hg]; decide
  · rw [hg]; decide

/-- C18: in every state reachable from the initial state by completed
iterations with arbitrary polled events, so at every render phase, each live
bullet has `dir = 2` and `y` in `[bullet_sprite.height, game.height)`, which is
`[3, 256)`; the removal test of the bullet loop is false for it, and the rows
`bullet_sprite.height - 1 + y - yi` of its stamp are computed without
wrapping. -/
theorem live_bullets_in_range (s : State) (h : reachable s) :
    bullet_sprite.height = 3 ∧ s.game.height = 256 ∧
      ∀ i, i < s.game.num_bullets →
        (s.game.bullets i).dir = 2 ∧
          bullet_sprite.height ≤ (s.game.bullets i).y ∧
          (s.game.bullets i).y < s.game.height ∧
          bullet_out bullet_sprite s.game (s.game.bullets i) = false ∧
          ∀ yi, yi < bullet_sprite.height →
            to_size_t (bullet_sprite.height - 1 + (s.game.bullets i).y - yi) =
              (s.game.bullets i).y + 2 - yi := by
  obtain ⟨⟨_, hh, _, hb⟩, _⟩ := reachable_inv s h
  refine ⟨rfl, hh, ?_⟩
  intro i hi
  obtain ⟨hd, h1, h2, _⟩ := hb.2 _ (live_bullets_mem s.game i hi)
  have hbs : bullet_sprite.height = 3 := rfl
  refine ⟨hd, by omega, by omega, ?_, ?_⟩
  · simp only [bullet_out, hh, hbs, decide_eq_false_iff_not]
    omega
  · intro yi hyi
    rw [hbs] at hyi ⊢
    unfold to_size_t
    push_cast
    omega

/-- C18, instance: the state two iterations after the start, a SPACE release
polled in the first: its bullet is at `y = 39` with `dir = 2`. -/
theorem live_bullets_in_range_witness :
    ∃ s, reachable s ∧ s.game.num_bullets = 1 ∧
      (s.game.bullets 0).dir = 2 ∧ bullet_sprite.height ≤ (s.game.bullets 0).y ∧
      (s.game.bullets 0).y < s.game.height := by
  obtain ⟨s, hr, hg⟩ := reachable_one_bullet
  have hn : s.game.num_bullets = 1 := by rw [hg]; decide
  obtain ⟨h1, h2, h3, _⟩ := (live_bullets_in_range s hr).2.2 0 (by omega)
  exact ⟨s, hr, hn, h1, h2, h3⟩

/-! ## The player in play -/

theorem simulate_player_real (game : Game) (move_dir : Int) (hw : game.width = 224)
    (hx : game.player.x ≤ 212) (hlo : -1 ≤ move_dir) (hhi : move_dir ≤ 1) :
    (simulate_player player_sprite move_dir game).1.player.x ≤ 212 := by
  have hps : player_sprite.width = 11 := rfl
  unfold simulate_player to_size_t to_int
  rw [hw, hps]
  split_ifs <;> simp only <;> omega

theorem reachable_of_play (s : State) (h : reachable_in_play s) : reachable s := by
  induction h with
  | start => exact reachable.start
  | tick s s1 events _ _ _ hb ih => exact reachable.tick s s1 events ih hb

theorem reachable_in_play_x (s : State) (h : reachable_in_play s) : s.game.player.x ≤ 212 := by
  induction h with
  | start => decide
  | tick s s1 events hs hlo hhi hb ih =>
    obtain ⟨⟨hw, _, _, _⟩, _⟩ := reachable_inv s (reachable_of_play s hs)
    rw [(main_loop_body_game s s1 events hb).1]
    have hs1 : (simulate s.game s.globals events).1 =
        (process_fire player_sprite s.globals.fire_pressed
          (simulate_player player_sprite s.globals.move_dir
            (simulate_bullets bullet_sprite s.game)).1).1 := rfl
    rw [hs1, (process_fire_frame _ _ _).2.2.2.2]
    obtain ⟨b1, _, _, _, b5, _⟩ := simulate_bullets_frame bullet_sprite s.game
    exact simulate_player_real _ _ (b1.trans hw) (by rw [b5]; exact ih) hlo hhi

/-- C19: with width 224 and the 11-wide player sprite, the player step maps
every `x` in `[0, 212]` to `[0, 212]` for `move_dir` in {-1, 0, 1} (right edge
`x + 11 <= 223`); hence in every state reachable from the initial state
through iterations that start with such a `move_dir`, the player sprite lies
inside the 224 x 256 buffer: every cell of its stamp passes the bounds test of
`buffer_sprite_draw`, so the sprite is not clipped. -/
theorem player_stays_in_field (s : State) (h : reachable_in_play s) :
    (∀ (game : Game) (move_dir : Int), game.width = 224 → game.player.x ≤ 212 →
        -1 ≤ move_dir → move_dir ≤ 1 →
        (simulate_player player_sprite move_dir game).1.player.x ≤ 212 ∧
          (simulate_player player_sprite move_dir game).1.player.x + 11 ≤ 223) ∧
      s.game.player.x ≤ 212 ∧
      s.game.player.x + player_sprite.width ≤ s.buffer.width ∧
      s.game.player.y + player_sprite.height ≤ s.buffer.height ∧
      (∀ xi yi, xi < player_sprite.width → yi < player_sprite.height →
        to_size_t (s.game.player.x + xi) < s.buffer.width ∧
          to_size_t (player_sprite.height - 1 + s.game.player.y - yi) < s.buffer.height) := by
  obtain ⟨⟨_, _, hy, _⟩, hbw, hbh, _⟩ := reachable_inv s (reachable_of_play s h)
  have hx := reachable_in_play_x s h
  have hpw : player_sprite.width = 11 := rfl
  have hph : player_sprite.height = 7 := rfl
  refine ⟨?_, hx, by omega, by omega, ?_⟩
  · intro game move_dir hw hgx hlo hhi
    have := simulate_player_real game move_dir hw hgx hlo hhi
    exact ⟨this, by omega⟩
  · intro xi yi hxi hyi
    rw [hpw] at hxi
    rw [hph] at hyi ⊢
    rw [hbw, hbh, hy]
    unfold to_size_t
    push_cast
    constructor <;> omega

/-- C19, instance: the state one iteration after the start, RIGHT pressed in
its poll. -/
theorem player_stays_in_field_witness :
    ∃ s, reachable_in_play s ∧ s.globals.move_dir = 1 ∧ s.game.player.x ≤ 212 ∧
      s.game.player.x + player_sprite.width ≤ s.buffer.width := by
  obtain ⟨s1, _, hb1, _, _, _, hgl1⟩ := main_loop_body_ok initial_state
    [{ key := GLFW_KEY_RIGHT, action := GLFW_PRESS }] initial_animation rfl
    initial_animation_ok
  have hr : reachable_in_play s1 :=
    reachable_in_play.tick _ _ _ reachable_in_play.start (by decide) (by decide) hb1
  obtain ⟨_, h2, h3, _⟩ := player_stays_in_field s1 hr
  refine ⟨s1, hr, ?_, h2, h3⟩
  rw [hgl1, (simulate_frame _ _ _).2.2.2.2.2.2]
  decide

end SpaceInvaders
